import Mathlib

/-!
# BMH05102 body-composition module driver

A shallow embedding of `src/main.cpp` (the framed command/response protocol
engine of the driver) together with theorems about it.

Modelling conventions.

* A byte (`uint8_t`) is a `Nat`; every store into a `uint8_t` is written with
  an explicit `% 256`, every store into a `uint16_t` with `% 65536`.  Byte
  buffers are `List Nat`, read with `List.getD _ _ 0`.
* `float` and `double` values are modelled by the rational numbers they
  denote.  A floating-point operation is the exact rational operation followed
  by a rounding to the nearest representable number, ties to even: `toFloat`
  (24 significant bits) and `toDouble` (53 significant bits).  The exponent
  range is not bounded (no overflow, no subnormal numbers, no NaN, no
  infinity).  Comparisons are exact, a promotion of a `float` to `double` is
  exact, and a conversion of a non-negative float to an unsigned integer is the
  floor.
* The serial port `BHM` is an oracle `Channel`: the answer to the `k`-th call of
  `BHM.available()` and the byte returned by the `k`-th call of `BHM.read()`.
  The mutable part of the environment is a `World`: how many calls were made,
  the millisecond clock, and the frames written so far.
* `delay(n)` advances the clock by exactly `n` ms; `millis()` is the clock
  modulo `2 ^ 32`.
* Loops whose exit depends on the environment take a `fuel` argument and return
  `Fault.outOfFuel` when it is used up.
* Console output (`Serial.print...`) is not modelled, except that the functions
  whose only result is what they print return the printed classification as a
  value.
-/

namespace BMH05102

deriving instance DecidableEq for Except

/-! ## Data model -/

/-- The record `struct BodyComposition` (all fields are `float` in the source). -/
structure BodyComposition where
  bodyFat : ℚ
  muscleMass : ℚ
  boneMass : ℚ
  waterContent : ℚ
  visceralFat : ℚ
  bmr : ℚ
  bodyAge : ℚ
  proteinRate : ℚ
  subcutaneousFat : ℚ
  bmi : ℚ
  deriving DecidableEq

/-- The record `struct UserInfo`; `age`, `gender`, `activity` are `uint8_t`,
`height` and `weight` are `float`. -/
structure UserInfo where
  age : Nat
  gender : Nat
  height : ℚ
  weight : ℚ
  activity : Nat
  deriving DecidableEq

/-- The behaviour of the serial port during one run: `available k` tells whether
the `k`-th call of `BHM.available()` reports a byte, `read k` is the value
returned by the `k`-th call of `BHM.read()`. -/
structure Channel where
  available : Nat → Bool
  read : Nat → Nat

/-- The mutable environment: number of `BHM.available()` and `BHM.read()` calls
made so far, the clock in ms, and the frames handed to `BHM.write`, oldest
first. -/
structure World where
  availableCalls : Nat
  readCalls : Nat
  now : Nat
  sent : List (List Nat)
  deriving DecidableEq

/-- Ways in which a run of the model stops without a result: a loop used up
its fuel, or a store fell outside its buffer. -/
inductive Fault where
  | outOfFuel
  | outOfBounds
  deriving DecidableEq

/-- The value of `millis()`, an `unsigned long` of 32 bits. -/
def millis (w : World) : Nat := w.now % 2 ^ 32

/-- The call `delay(ms)`. -/
def delay (ms : Nat) (w : World) : World := { w with now := w.now + ms }

/-- The big-endian 16-bit read `(hi << 8) | lo` stored in a `uint16_t`. -/
def be16 (hi lo : Nat) : Nat := ((hi <<< 8) ||| lo) % 65536

/-! ## Floating-point rounding -/

/-- Round to the nearest integer, ties to the even one. -/
def roundHalfEven (x : ℚ) : ℤ :=
  if x - ⌊x⌋ < 1 / 2 then ⌊x⌋
  else if 1 / 2 < x - ⌊x⌋ then ⌊x⌋ + 1
  else if ⌊x⌋ % 2 = 0 then ⌊x⌋ else ⌊x⌋ + 1

/-- Round to the nearest binary floating-point number with `p` significant
bits, ties to even: with `2 ^ e ≤ |x| < 2 ^ (e + 1)` the result is the multiple
of `2 ^ (e - (p - 1))` nearest to `x`. -/
def roundToBits (p : Nat) (x : ℚ) : ℚ :=
  if x = 0 then 0
  else (roundHalfEven (x / (2 : ℚ) ^ (Int.log 2 |x| - ((p : ℤ) - 1))) : ℚ)
    * (2 : ℚ) ^ (Int.log 2 |x| - ((p : ℤ) - 1))

/-- The rounding of a result to `float` (IEEE-754 binary32, 24 significant
bits). -/
def toFloat (x : ℚ) : ℚ := roundToBits 24 x

/-- The rounding of a result to `double` (IEEE-754 binary64, 53 significant
bits). -/
def toDouble (x : ℚ) : ℚ := roundToBits 53 x

/-- The value of `raw / 10.0` stored in a `float`: the integer `raw` converts to
`double` exactly, the division is a `double` division, and the quotient is
rounded once more when it is stored. -/
def tenthAsFloat (raw : Nat) : ℚ := toFloat (toDouble ((raw : ℚ) / 10))

/-! ## Checksum (`calculateChecksum`, lines 99-105) -/

/-- The loop `for (int i = 1; i < length - 2; i++) checksum ^= data[i];`
started at index `i` with the running value `checksum`.  The comparison is
done on `int`, as in the source, so `length - 2` may be negative. -/
def calculateChecksum.loop (data : List Nat) (length : Nat) : Nat → Nat → Nat → Nat
  | 0, _, checksum => checksum
  | fuel + 1, i, checksum =>
    if (i : Int) < (length : Int) - 2 then
      calculateChecksum.loop data length fuel (i + 1) ((checksum ^^^ data.getD i 0) % 256)
    else checksum

/-- The function `calculateChecksum(data, length)`.  The loop runs fewer than
`length` times, so `length` is enough fuel. -/
def calculateChecksum (data : List Nat) (length : Nat) : Nat :=
  calculateChecksum.loop data length length 1 0

/-- XOR of the bytes `data[lo], ..., data[hi - 1]`. -/
def xorRange (data : List Nat) (lo hi : Nat) : Nat :=
  ((data.take hi).drop lo).foldl (fun acc b => acc ^^^ b) 0

/-! ## Transaction engine (`sendCommand`, lines 108-148) -/

/-- The loop `while (BHM.available()) BHM.read();`. -/
def sendCommand.drain (ch : Channel) : Nat → World → Except Fault World
  | 0, _ => .error .outOfFuel
  | fuel + 1, w =>
    if ch.available w.availableCalls then
      sendCommand.drain ch fuel
        { w with availableCalls := w.availableCalls + 1, readCalls := w.readCalls + 1 }
    else .ok { w with availableCalls := w.availableCalls + 1 }

/-- The loop
`while (millis() - startTime < 500 && bytesRead < expectedLen) { ... }`;
the result is the final `bytesRead`, the buffer and the environment. -/
def sendCommand.receive (ch : Channel) (startTime expectedLen : Nat) :
    Nat → World → Nat → List Nat → Except Fault (Nat × List Nat × World)
  | 0, _, _, _ => .error .outOfFuel
  | fuel + 1, w, bytesRead, response =>
    if (millis w + 2 ^ 32 - startTime) % 2 ^ 32 < 500 ∧ bytesRead < expectedLen then
      if ch.available w.availableCalls then
        if bytesRead < response.length then
          sendCommand.receive ch startTime expectedLen fuel
            (delay 1 (delay 2
              { w with availableCalls := w.availableCalls + 1, readCalls := w.readCalls + 1 }))
            (bytesRead + 1) (response.set bytesRead (ch.read w.readCalls % 256))
        else .error .outOfBounds
      else
        sendCommand.receive ch startTime expectedLen fuel
          (delay 1 { w with availableCalls := w.availableCalls + 1 }) bytesRead response
    else .ok (bytesRead, response, w)

/-- The function `sendCommand(command, cmdLen, response, expectedLen, cmdName)`:
the returned triple is the `bool` result, the response buffer and the
environment after the call. -/
def sendCommand (ch : Channel) (fuel : Nat) (w : World) (command : List Nat) (cmdLen : Nat)
    (response : List Nat) (expectedLen : Nat) : Except Fault (Bool × List Nat × World) :=
  match sendCommand.drain ch fuel w with
  | .error e => .error e
  | .ok w1 =>
    let w2 : World := { w1 with sent := w1.sent ++ [command.take cmdLen] }
    let startTime := millis w2
    match sendCommand.receive ch startTime expectedLen fuel w2 0 response with
    | .error e => .error e
    | .ok (bytesRead, response, w3) => .ok (decide (bytesRead = expectedLen), response, w3)

/-! ## Mode controller and measurement start (lines 246-311) -/

/-- The frame `command[]` of `enterImpedanceMode`. -/
def enterImpedanceMode.command : List Nat := [0xA5, 0x05, 0x26, 0x10, 0x03, 0x30, 0xAA]

/-- The function `enterImpedanceMode()`. -/
def enterImpedanceMode (ch : Channel) (fuel : Nat) (w : World) : Except Fault (Bool × World) :=
  let command := enterImpedanceMode.command
  let response := List.replicate 7 0
  match sendCommand ch fuel w command command.length response response.length with
  | .error e => .error e
  | .ok (true, response, w1) =>
    if response.getD 0 0 = 0x5A ∧ response.getD 4 0 = 0x03 then .ok (true, w1)
    else if response.getD 4 0 = 0xFF then .ok (false, w1)
    else .ok (false, w1)
  | .ok (false, _, w1) => .ok (false, w1)

/-- The frame `command[]` of `setHandImpedanceMode(enable)`, after
`command[10] = calculateChecksum(command, sizeof(command))`. -/
def setHandImpedanceMode.command (enable : Bool) : List Nat :=
  let enableValue := if enable then 0x01 else 0x00
  let command :=
    [0xA5, 0x0A, 0x26, 0x14, 0x02, 0x2D, 0x00, 0x00, 0x00, enableValue, 0x00, 0xAA]
  command.set 10 (calculateChecksum command command.length)

/-- The function `setHandImpedanceMode(enable)`. -/
def setHandImpedanceMode (ch : Channel) (fuel : Nat) (w : World) (enable : Bool) :
    Except Fault (Bool × World) :=
  let command := setHandImpedanceMode.command enable
  let response := List.replicate 12 0
  match sendCommand ch fuel w command command.length response response.length with
  | .error e => .error e
  | .ok (true, response, w1) =>
    if response.getD 0 0 = 0x5A ∧ response.getD 4 0 = 0x00 then .ok (true, w1)
    else .ok (false, w1)
  | .ok (false, _, w1) => .ok (false, w1)

/-- The frame `command[]` of `readImpedanceMode`. -/
def readImpedanceMode.command : List Nat :=
  [0xA5, 0x0A, 0x26, 0x14, 0x01, 0x2D, 0x00, 0x00, 0x00, 0x00, 0x14, 0xAA]

/-- The function `readImpedanceMode()`; `return mode;` converts the byte to
`bool`, that is to `mode != 0`. -/
def readImpedanceMode (ch : Channel) (fuel : Nat) (w : World) : Except Fault (Bool × World) :=
  let command := readImpedanceMode.command
  let response := List.replicate 12 0
  match sendCommand ch fuel w command command.length response response.length with
  | .error e => .error e
  | .ok (true, response, w1) =>
    if response.getD 0 0 = 0x5A ∧ response.getD 4 0 = 0x00 then
      let mode := response.getD 9 0
      .ok (decide (mode ≠ 0), w1)
    else .ok (false, w1)
  | .ok (false, _, w1) => .ok (false, w1)

/-! ## Composition request and decode (`getBodyCompositionData`, lines 314-419) -/

/-- The frame `command[]` of `getBodyCompositionData(impedance, result)` for the
profile `user`, after `command[11] = calculateChecksum(command, sizeof(command))`.
The locals are `uint8_t height = (uint8_t)user.height`,
`uint16_t weight = (uint16_t)(user.weight * 10)`, `uint8_t age`, `uint8_t gender`;
the product `user.weight * 10` is a `float` product, rounded to single
precision before it is truncated. -/
def getBodyCompositionData.command (user : UserInfo) (impedance : Nat) : List Nat :=
  let height := ⌊user.height⌋₊ % 256
  let weight := ⌊toFloat (user.weight * 10)⌋₊ % 65536
  let age := user.age % 256
  let gender := user.gender % 256
  let command :=
    [0xA5, 0x0B, 0x26, 0x15,
     height,
     (weight >>> 8) % 256,
     (weight &&& 0xFF) % 256,
     age,
     gender,
     (impedance >>> 8) % 256,
     (impedance &&& 0xFF) % 256,
     0x00,
     0xAA]
  command.set 11 (calculateChecksum command command.length)

/-- The assignments of lines 383-407: the record decoded from a response, for
the body weight `weight` of the profile.  A quotient `raw / 10.0` stored in a
`float` is `tenthAsFloat raw`; an integer stored in a `float` field is
converted to `float`; the muscle mass
`(muscleRatePercent / 100.0) * user.weight` is a `double` division followed by
a `double` multiplication, stored in a `float`. -/
def getBodyCompositionData.decode (weight : ℚ) (response : List Nat) : BodyComposition :=
  let fatRate := be16 (response.getD 5 0) (response.getD 6 0)
  let waterRate := be16 (response.getD 7 0) (response.getD 8 0)
  let muscleRate := be16 (response.getD 9 0) (response.getD 10 0)
  let boneWeight := response.getD 11 0
  let bmr := be16 (response.getD 12 0) (response.getD 13 0)
  let visceralFat := response.getD 14 0
  let bmi := be16 (response.getD 15 0) (response.getD 16 0)
  let bodyAge := response.getD 17 0
  let proteinRate := be16 (response.getD 18 0) (response.getD 19 0)
  let subcutFat := be16 (response.getD 20 0) (response.getD 21 0)
  let muscleRatePercent : ℚ := tenthAsFloat muscleRate
  { bodyFat := tenthAsFloat fatRate
    waterContent := tenthAsFloat waterRate
    boneMass := tenthAsFloat boneWeight
    bmr := toFloat (bmr : ℚ)
    visceralFat := toFloat (visceralFat : ℚ)
    bmi := tenthAsFloat bmi
    bodyAge := toFloat (bodyAge : ℚ)
    proteinRate := tenthAsFloat proteinRate
    subcutaneousFat := tenthAsFloat subcutFat
    muscleMass := toFloat (toDouble (toDouble (muscleRatePercent / 100) * weight)) }

/-- The function `getBodyCompositionData(impedance, result)` with the global
`user` as a parameter; `result` is the record passed by reference, returned as
the second component. -/
def getBodyCompositionData (ch : Channel) (fuel : Nat) (w : World) (user : UserInfo)
    (impedance : Nat) (result : BodyComposition) :
    Except Fault (Bool × BodyComposition × World) :=
  if impedance = 0 ∨ impedance ≥ 0xFFF0 then .ok (false, result, w)
  else if user.height < 90 ∨ user.height > 220 then .ok (false, result, w)
  else if user.weight < 10 ∨ user.weight > 200 then .ok (false, result, w)
  else if user.age < 6 ∨ user.age > 99 then .ok (false, result, w)
  else
    let command := getBodyCompositionData.command user impedance
    let response := List.replicate 24 0
    match sendCommand ch fuel w command command.length response response.length with
    | .error e => .error e
    | .ok (true, response, w1) =>
      if response.getD 0 0 = 0x5A ∧ response.getD 1 0 = 0x16 then
        let errorCode := response.getD 4 0
        if errorCode ≠ 0x00 then .ok (false, result, w1)
        else .ok (true, getBodyCompositionData.decode user.weight response, w1)
      else .ok (false, result, w1)
    | .ok (false, _, w1) => .ok (false, result, w1)

/-! ## Level judgement (`getBodyCompositionLevel`, lines 422-543) -/

/-- The texts printed by the nine `switch` statements of
`getBodyCompositionLevel`; `unknown` is the `default:` text. -/
inductive Level where
  | thin
  | standard
  | alert
  | overweight
  | obese
  | insufficient
  | excellent
  | low
  | reached
  | danger
  | ordinary
  | high
  | unknown
  deriving DecidableEq

/-- The `switch(fatLevel)`. -/
def getBodyCompositionLevel.fat (fatLevel : Nat) : Level :=
  if fatLevel = 0 then .thin else if fatLevel = 1 then .standard
  else if fatLevel = 2 then .alert else if fatLevel = 3 then .overweight
  else if fatLevel = 4 then .obese else .unknown

/-- The `switch` of `waterLevel`, `muscleLevel`, `boneLevel` and `proteinLevel`
(the four have the same cases and texts). -/
def getBodyCompositionLevel.threeStep (level : Nat) : Level :=
  if level = 0 then .insufficient else if level = 1 then .standard
  else if level = 2 then .excellent else .unknown

/-- The `switch(bmrLevel)`. -/
def getBodyCompositionLevel.bmr (bmrLevel : Nat) : Level :=
  if bmrLevel = 0 then .low else if bmrLevel = 1 then .reached else .unknown

/-- The `switch(visceralLevel)`. -/
def getBodyCompositionLevel.visceral (visceralLevel : Nat) : Level :=
  if visceralLevel = 0 then .standard else if visceralLevel = 1 then .alert
  else if visceralLevel = 2 then .danger else .unknown

/-- The `switch(bmiLevel)`. -/
def getBodyCompositionLevel.bmi (bmiLevel : Nat) : Level :=
  if bmiLevel = 0 then .thin else if bmiLevel = 1 then .ordinary
  else if bmiLevel = 2 then .overweight else if bmiLevel = 3 then .obese else .unknown

/-- The `switch(subcutLevel)`. -/
def getBodyCompositionLevel.subcut (subcutLevel : Nat) : Level :=
  if subcutLevel = 0 then .insufficient else if subcutLevel = 1 then .standard
  else if subcutLevel = 2 then .high else .unknown

/-- What `getBodyCompositionLevel` prints on success: one level per metric. -/
structure LevelReport where
  fat : Level
  water : Level
  muscle : Level
  bone : Level
  bmr : Level
  visceral : Level
  bmi : Level
  protein : Level
  subcut : Level
  deriving DecidableEq

/-- The frame `command[]` of `getBodyCompositionLevel`. -/
def getBodyCompositionLevel.command : List Nat := [0xA5, 0x04, 0x26, 0x16, 0x34, 0xAA]

/-- The function `getBodyCompositionLevel()`: the `bool` result and, when it is
`true`, the nine levels printed. -/
def getBodyCompositionLevel (ch : Channel) (fuel : Nat) (w : World) :
    Except Fault (Bool × Option LevelReport × World) :=
  let command := getBodyCompositionLevel.command
  let response := List.replicate 16 0
  match sendCommand ch fuel w command command.length response response.length with
  | .error e => .error e
  | .ok (true, response, w1) =>
    if response.getD 0 0 = 0x5A ∧ response.getD 1 0 = 0x0E then
      let errorCode := response.getD 4 0
      if errorCode ≠ 0x00 then .ok (false, none, w1)
      else
        .ok (true, some
          { fat := getBodyCompositionLevel.fat (response.getD 5 0)
            water := getBodyCompositionLevel.threeStep (response.getD 6 0)
            muscle := getBodyCompositionLevel.threeStep (response.getD 7 0)
            bone := getBodyCompositionLevel.threeStep (response.getD 8 0)
            bmr := getBodyCompositionLevel.bmr (response.getD 9 0)
            visceral := getBodyCompositionLevel.visceral (response.getD 10 0)
            bmi := getBodyCompositionLevel.bmi (response.getD 11 0)
            protein := getBodyCompositionLevel.threeStep (response.getD 12 0)
            subcut := getBodyCompositionLevel.subcut (response.getD 13 0) }, w1)
    else .ok (false, none, w1)
  | .ok (false, _, w1) => .ok (false, none, w1)

/-! ## Impedance status (`parseImpedanceData`, `queryImpedanceStatus`, lines 193-274) -/

/-- What `parseImpedanceData` reports.  The first four are the early returns of
the `switch` on the impedance status (0, 1, 3 and `default`); `contactFailure`
is the branch of the raw values 0xFFFF, 0xFFF1, 0xFFF2; `zeroImpedance` the
branch of the raw value 0; `valid` the last branch, with the raw impedance
printed, the composition displayed (when `getBodyCompositionData` returned
`true`) and the levels printed by `getBodyCompositionLevel`. -/
inductive ImpedanceReport where
  | notStarted
  | measuring
  | measurementFailed
  | unknownStatus
  | contactFailure
  | zeroImpedance
  | valid (rawImpedance : Nat) (composition : Option BodyComposition)
      (levels : Option LevelReport)
  deriving DecidableEq

/-- The record `BodyComposition composition = {0};`. -/
def zeroComposition : BodyComposition :=
  { bodyFat := 0, muscleMass := 0, boneMass := 0, waterContent := 0, visceralFat := 0,
    bmr := 0, bodyAge := 0, proteinRate := 0, subcutaneousFat := 0, bmi := 0 }

/-- The last `else` branch of `parseImpedanceData` (lines 229-240): request the
composition for `rawImpedance`, and on success wait 500 ms and request the
levels. -/
def parseImpedanceData.compute (ch : Channel) (fuel : Nat) (w : World) (user : UserInfo)
    (rawImpedance : Nat) : Except Fault (ImpedanceReport × World) :=
  match getBodyCompositionData ch fuel w user rawImpedance zeroComposition with
  | .error e => .error e
  | .ok (true, composition, w1) =>
    match getBodyCompositionLevel ch fuel (delay 500 w1) with
    | .error e => .error e
    | .ok (_, levels, w2) => .ok (.valid rawImpedance (some composition) levels, w2)
  | .ok (false, _, w1) => .ok (.valid rawImpedance none none, w1)

/-- The function `parseImpedanceData(data)`. -/
def parseImpedanceData (ch : Channel) (fuel : Nat) (w : World) (user : UserInfo)
    (data : List Nat) : Except Fault (ImpedanceReport × World) :=
  let workStatus2 := data.getD 5 0
  let impedanceStatus := ((workStatus2 >>> 4) &&& 0x0F) % 256
  if impedanceStatus = 0 then .ok (.notStarted, w)
  else if impedanceStatus = 1 then .ok (.measuring, w)
  else if impedanceStatus = 2 then
    let rawImpedance := be16 (data.getD 9 0) (data.getD 10 0)
    if rawImpedance = 0xFFFF ∨ rawImpedance = 0xFFF1 ∨ rawImpedance = 0xFFF2 then
      .ok (.contactFailure, w)
    else if rawImpedance = 0x0000 then .ok (.zeroImpedance, w)
    else parseImpedanceData.compute ch fuel w user rawImpedance
  else if impedanceStatus = 3 then .ok (.measurementFailed, w)
  else .ok (.unknownStatus, w)

/-- What `queryImpedanceStatus` reports: no complete response, a response with
a wrong preamble, or the report of `parseImpedanceData`. -/
inductive QueryReport where
  | noResponse
  | formatError
  | parsed (report : ImpedanceReport)
  deriving DecidableEq

/-- The frame `command[]` of `queryImpedanceStatus`. -/
def queryImpedanceStatus.command : List Nat := [0xA5, 0x05, 0x26, 0x11, 0x00, 0x32, 0xAA]

/-- The function `queryImpedanceStatus()`. -/
def queryImpedanceStatus (ch : Channel) (fuel : Nat) (w : World) (user : UserInfo) :
    Except Fault (QueryReport × World) :=
  let command := queryImpedanceStatus.command
  let response := List.replicate 18 0
  match sendCommand ch fuel w command command.length response response.length with
  | .error e => .error e
  | .ok (true, response, w1) =>
    if response.getD 0 0 = 0x5A ∧ response.getD 1 0 = 0x10 then
      match parseImpedanceData ch fuel w1 user response with
      | .error e => .error e
      | .ok (report, w2) => .ok (.parsed report, w2)
    else .ok (.formatError, w1)
  | .ok (false, _, w1) => .ok (.noResponse, w1)

/-! ## Frame predicates used in the statements -/

/-- The checksum byte of a frame: its second-to-last byte. -/
def checksumByte (frame : List Nat) : Nat := frame.getD (frame.length - 2) 0

/-- The checksum byte of `frame` is the XOR of its bytes at the indices
`lo, ..., frame.length - 3`. -/
def ChecksumIsXorFrom (lo : Nat) (frame : List Nat) : Prop :=
  checksumByte frame = xorRange frame lo (frame.length - 2)

instance (lo : Nat) (frame : List Nat) : Decidable (ChecksumIsXorFrom lo frame) := by
  unfold ChecksumIsXorFrom; infer_instance

/-! ## Concrete inputs -/

/-- The profile the source initialises the global `user` with (lines 43-49). -/
def defaultUser : UserInfo :=
  { age := 21, gender := 1, height := 175, weight := 64, activity := 3 }

/-- The environment before anything happened. -/
def World.initial : World := { availableCalls := 0, readCalls := 0, now := 0, sent := [] }

/-- A port with nothing buffered on which the bytes of `response` arrive, one
per poll, right after the command was written: the first `BHM.available()` (the
one of the discard loop) reports nothing, the following `response.length` calls
report a byte, and the `k`-th `BHM.read()` returns `response[k]`. -/
def Channel.replying (response : List Nat) : Channel :=
  { available := fun k => decide (1 ≤ k ∧ k ≤ response.length)
    read := fun k => response.getD k 0 }

/-- A port that never has a byte. -/
def Channel.silent : Channel := { available := fun _ => false, read := fun _ => 0 }

/-- A 24-byte composition response with status 0: fat 20.5 %, water 55.0 %,
muscle rate 45.0 %, bone 3.1 kg, BMR 1500, visceral fat 5, BMI 20.9, body age
22, protein 18.0 %, subcutaneous fat 10.0. -/
def sampleCompositionResponse : List Nat :=
  [0x5A, 0x16, 0x26, 0x15, 0x00, 0x00, 0xCD, 0x02, 0x26, 0x01, 0xC2, 0x1F,
   0x05, 0xDC, 0x05, 0x00, 0xD1, 0x16, 0x00, 0xB4, 0x00, 0x64, 0x00, 0xAA]

/-- The default profile with the gender byte 2, which is neither female (0)
nor male (1). -/
def genderTwoUser : UserInfo := { defaultUser with gender := 2 }

/-- An 18-byte status response whose impedance status (high half of byte 5)
is 2, "measurement succeeded", and whose raw impedance bytes are `hi`, `lo`. -/
def statusResponse (hi lo : Nat) : List Nat :=
  [0x5A, 0x10, 0x26, 0x11, 0x00, 0x20, 0x00, 0x00, 0x00, hi, lo,
   0x00, 0x00, 0x00, 0x00, 0x00, 0x00, 0xAA]

/-- The default profile at the upper bounds of height and weight. -/
def upperBoundUser : UserInfo := { defaultUser with height := 220, weight := 200 }

/-- The default profile with the height 89 cm, just below the lower bound. -/
def shortUser : UserInfo := { defaultUser with height := 89 }

/-- The default profile with the weight 9.9 kg, just below the lower bound. -/
def lightUser : UserInfo := { defaultUser with weight := 99 / 10 }

/-- A port that reports a byte at every poll. -/
def Channel.flooding : Channel := { available := fun _ => true, read := fun _ => 0 }

/-- The 7-byte acknowledgement of "enter impedance mode": 5A 05 26 10 03 30 AA. -/
def enterAckResponse : List Nat := [0x5A, 0x05, 0x26, 0x10, 0x03, 0x30, 0xAA]

/-- The 7-byte error answer to "enter impedance mode": 5A 05 26 10 FF 2B AA. -/
def enterErrorResponse : List Nat := [0x5A, 0x05, 0x26, 0x10, 0xFF, 0x2B, 0xAA]

/-- A 12-byte answer to the mode commands with status 0: start marker `marker`,
declared-length byte `declaredLength`, mode byte `mode` at offset 9. -/
def modeResponse (marker declaredLength mode : Nat) : List Nat :=
  [marker, declaredLength, 0x26, 0x14, 0x00, 0x2D, 0x00, 0x00, 0x00, mode, 0x00, 0xAA]

/-- A 16-byte level response with status 0 whose BMI byte (offset 11) is 0xFF:
fat 1, water 2, muscle 1, bone 0, BMR 1, visceral 0, protein 1, subcutaneous
fat 2. -/
def sampleLevelResponse : List Nat :=
  [0x5A, 0x0E, 0x26, 0x16, 0x00, 0x01, 0x02, 0x01, 0x00, 0x01, 0x00, 0xFF, 0x01, 0x02,
   0x00, 0xAA]

/-- A 7-byte answer to "enter impedance mode" with the right start marker and
mode byte but the declared-length byte 0x99 instead of 0x05. -/
def enterWrongLengthResponse : List Nat := [0x5A, 0x99, 0x26, 0x10, 0x03, 0x30, 0xAA]

/-- The default profile with the weight 8401715 / 131072 kg, the `float`
nearest to 64.1. -/
def roundedWeightUser : UserInfo := { defaultUser with weight := 8401715 / 131072 }

/-! ## Lemmas on the checksum loop -/

theorem calculateChecksum.loop_congr (data data2 : List Nat) (length : Nat) :
    ∀ (fuel i acc : Nat),
      (∀ j, i ≤ j → j + 2 < length → data2.getD j 0 = data.getD j 0) →
      calculateChecksum.loop data2 length fuel i acc =
        calculateChecksum.loop data length fuel i acc := by
  intro fuel
  induction fuel with
  | zero => intro i acc _; rfl
  | succ k ih =>
    intro i acc h
    simp only [calculateChecksum.loop]
    by_cases hc : (i : Int) < (length : Int) - 2
    · rw [if_pos hc, if_pos hc, h i (Nat.le_refl i) (by omega)]
      exact ih (i + 1) _ (fun j hj hj2 => h j (by omega) hj2)
    · rw [if_neg hc, if_neg hc]

theorem foldl_xor_lt (l : List Nat) : ∀ acc, acc < 256 → (∀ b ∈ l, b < 256) →
    l.foldl (fun acc b => acc ^^^ b) acc < 256 := by
  induction l with
  | nil => intro acc h _; simpa using h
  | cons x xs ih =>
    intro acc h hb
    simp only [List.foldl_cons]
    apply ih
    · exact Nat.xor_lt_two_pow (n := 8) h (hb x (by simp))
    · intro b hbm; exact hb b (by simp [hbm])

theorem calculateChecksum.loop_eq_foldl (data : List Nat) (length : Nat)
    (hlen : length ≤ data.length) (hb : ∀ b ∈ data, b < 256) :
    ∀ (fuel i acc : Nat), length ≤ fuel + i + 2 → acc < 256 →
      calculateChecksum.loop data length fuel i acc =
        ((data.take (length - 2)).drop i).foldl (fun acc b => acc ^^^ b) acc := by
  intro fuel
  induction fuel with
  | zero =>
    intro i acc hf _
    have : (data.take (length - 2)).drop i = [] := by
      apply List.drop_eq_nil_of_le
      simp; omega
    simp [calculateChecksum.loop, this]
  | succ k ih =>
    intro i acc hf hacc
    simp only [calculateChecksum.loop]
    by_cases hc : (i : Int) < (length : Int) - 2
    · have hi : i < (data.take (length - 2)).length := by simp; omega
      have hid : i < data.length := by omega
      rw [if_pos hc, List.drop_eq_getElem_cons hi, List.foldl_cons]
      have hg : data.getD i 0 = data[i] := by simp [List.getD_eq_getElem?_getD, hid]
      have hx : (data.take (length - 2))[i] = data[i] := by simp
      have hlt : data[i] < 256 := hb _ (List.getElem_mem _)
      rw [hg, hx, Nat.mod_eq_of_lt (Nat.xor_lt_two_pow (n := 8) hacc hlt)]
      exact ih (i + 1) _ (by omega) (Nat.xor_lt_two_pow (n := 8) hacc hlt)
    · rw [if_neg hc]
      have : (data.take (length - 2)).drop i = [] := by
        apply List.drop_eq_nil_of_le
        simp; omega
      simp [this]

/-- The checksum of well-formed bytes is the XOR of the window `1 .. length - 3`. -/
theorem calculateChecksum_eq_xorRange (data : List Nat) (length : Nat)
    (hlen : length ≤ data.length) (hb : ∀ b ∈ data, b < 256) :
    calculateChecksum data length = xorRange data 1 (length - 2) := by
  unfold calculateChecksum xorRange
  exact calculateChecksum.loop_eq_foldl data length hlen hb length 1 0 (by omega) (by omega)

/-- The checksum only reads the window `1 .. length - 3`. -/
theorem calculateChecksum_congr (data data2 : List Nat) (length : Nat)
    (h : ∀ j, 1 ≤ j → j + 2 < length → data2.getD j 0 = data.getD j 0) :
    calculateChecksum data2 length = calculateChecksum data length := by
  unfold calculateChecksum
  exact calculateChecksum.loop_congr data data2 length length 1 0 h

/-! ## Checksum window -/

/-- C1: for every byte array `data` and every length `n` with `n ≤` the size of
`data` (in particular every `n` in 0..255), `calculateChecksum data n` is the
XOR of exactly the bytes `data[i]` with `1 ≤ i < n - 2`; it is 0 when `n ≤ 3`;
and the bytes outside that window (index 0, and the positions `n - 2` and
`n - 1`) never contribute: an array that agrees with `data` on the window has
the same checksum. -/
theorem calculateChecksum_window (data : List Nat) (n : Nat)
    (hn : n ≤ data.length) (hb : ∀ b ∈ data, b < 256) :
    calculateChecksum data n = xorRange data 1 (n - 2) ∧
    (n ≤ 3 → calculateChecksum data n = 0) ∧
    (∀ data2 : List Nat,
      (∀ i, 1 ≤ i → i + 2 < n → data2.getD i 0 = data.getD i 0) →
      calculateChecksum data2 n = calculateChecksum data n) := by
  refine ⟨calculateChecksum_eq_xorRange data n hn hb, ?_, ?_⟩
  · intro h3
    rw [calculateChecksum_eq_xorRange data n hn hb]
    have : (data.take (n - 2)).drop 1 = [] := by
      apply List.drop_eq_nil_of_le
      simp; omega
    simp [xorRange, this]
  · intro data2 h
    exact calculateChecksum_congr data data2 n h

/-- C1 at the frame of `enterImpedanceMode`: the checksum of the seven bytes is
`0x05 ^ 0x26 ^ 0x10 ^ 0x03`. -/
theorem calculateChecksum_window_witness :
    calculateChecksum [0xA5, 0x05, 0x26, 0x10, 0x03, 0x30, 0xAA] 7
        = xorRange [0xA5, 0x05, 0x26, 0x10, 0x03, 0x30, 0xAA] 1 (7 - 2) ∧
    (7 ≤ 3 → calculateChecksum [0xA5, 0x05, 0x26, 0x10, 0x03, 0x30, 0xAA] 7 = 0) ∧
    (∀ data2 : List Nat,
      (∀ i, 1 ≤ i → i + 2 < 7 →
        data2.getD i 0 = [0xA5, 0x05, 0x26, 0x10, 0x03, 0x30, 0xAA].getD i 0) →
      calculateChecksum data2 7
        = calculateChecksum [0xA5, 0x05, 0x26, 0x10, 0x03, 0x30, 0xAA] 7) :=
  calculateChecksum_window [0xA5, 0x05, 0x26, 0x10, 0x03, 0x30, 0xAA] 7
    (by decide) (by decide)

/-! ## Lemmas on the command frames -/

theorem calculateChecksum.loop_lt (data : List Nat) (length : Nat) :
    ∀ (fuel i acc : Nat), acc < 256 → calculateChecksum.loop data length fuel i acc < 256 := by
  intro fuel
  induction fuel with
  | zero => intro i acc h; simpa [calculateChecksum.loop] using h
  | succ k ih =>
    intro i acc h
    simp only [calculateChecksum.loop]
    split
    · exact ih _ _ (Nat.mod_lt _ (by decide))
    · exact h

theorem calculateChecksum_lt (data : List Nat) (length : Nat) :
    calculateChecksum data length < 256 :=
  calculateChecksum.loop_lt data length length 1 0 (by decide)

/-- Writing the checksum of a frame into its second-to-last position gives a
frame that carries its own checksum. -/
theorem checksum_set (base : List Nat) (n : Nat) (hn : n + 2 = base.length) :
    checksumByte (base.set n (calculateChecksum base base.length))
      = calculateChecksum (base.set n (calculateChecksum base base.length))
          (base.set n (calculateChecksum base base.length)).length := by
  have hget : checksumByte (base.set n (calculateChecksum base base.length))
      = calculateChecksum base base.length := by
    unfold checksumByte
    have h1 : (base.set n (calculateChecksum base base.length)).length - 2 = n := by
      simp; omega
    rw [h1, List.getD_eq_getElem?_getD, List.getElem?_set_self (by omega)]
    rfl
  rw [hget, List.length_set]
  symm
  apply calculateChecksum_congr
  intro j _ hj2
  rw [List.getD_eq_getElem?_getD, List.getD_eq_getElem?_getD,
    List.getElem?_set_ne (by omega)]

theorem getBodyCompositionData.command_bytes (user : UserInfo) (impedance : Nat) :
    ∀ b ∈ getBodyCompositionData.command user impedance, b < 256 := by
  intro b hb
  have hcs := calculateChecksum_lt
    [0xA5, 0x0B, 0x26, 0x15, ⌊user.height⌋₊ % 256,
     ((⌊toFloat (user.weight * 10)⌋₊ % 65536) >>> 8) % 256,
     ((⌊toFloat (user.weight * 10)⌋₊ % 65536) &&& 0xFF) % 256, user.age % 256,
     user.gender % 256,
     (impedance >>> 8) % 256, (impedance &&& 0xFF) % 256, 0x00, 0xAA] 13
  simp only [getBodyCompositionData.command, List.set_cons_succ, List.set_cons_zero,
    List.length_cons, List.length_nil, List.mem_cons, List.mem_singleton,
    List.mem_nil_iff, or_false] at hb
  rcases hb with h | h | h | h | h | h | h | h | h | h | h | h | h <;> subst h <;>
    first
    | exact hcs
    | exact Nat.mod_lt _ (by decide)
    | decide

/-! ## Checksum and length of the command frames -/

/-- C2 as stated fails: in the frame of `enterImpedanceMode` the checksum byte
is 0x30, while the XOR of the bytes strictly between the length byte and the
checksum byte (indices 2..4) is 0x35. -/
theorem checksum_excluding_length_fails :
    checksumByte enterImpedanceMode.command = 0x30 ∧
    xorRange enterImpedanceMode.command 2 (enterImpedanceMode.command.length - 2) = 0x35 ∧
    ¬ ChecksumIsXorFrom 2 enterImpedanceMode.command := by
  decide

/-- C2 amended: in every command frame the driver builds (enter impedance
mode, query status, set hand/foot mode for both targets, read mode, compute
composition for every profile and impedance, compute levels) the checksum byte
(second-to-last byte) is the XOR of the bytes at the indices 1 .. n-3: the
length byte is included, the start marker, the checksum byte and the end
marker are excluded. -/
theorem checksum_is_xor_from_length_byte :
    ChecksumIsXorFrom 1 enterImpedanceMode.command ∧
    ChecksumIsXorFrom 1 queryImpedanceStatus.command ∧
    (∀ enable : Bool, ChecksumIsXorFrom 1 (setHandImpedanceMode.command enable)) ∧
    ChecksumIsXorFrom 1 readImpedanceMode.command ∧
    (∀ (user : UserInfo) (impedance : Nat),
      ChecksumIsXorFrom 1 (getBodyCompositionData.command user impedance)) ∧
    ChecksumIsXorFrom 1 getBodyCompositionLevel.command := by
  refine ⟨by decide, by decide, by decide, by decide, ?_, by decide⟩
  intro user impedance
  unfold ChecksumIsXorFrom
  rw [← calculateChecksum_eq_xorRange _ _ (Nat.le_refl _)
    (getBodyCompositionData.command_bytes user impedance)]
  exact checksum_set _ 11 rfl

/-- C3: every command frame the driver builds carries, in its second-to-last
byte, exactly the value `calculateChecksum` returns for that frame: the four
literal frames (with the checksum bytes 0x30, 0x32, 0x14, 0x34), the frames of
`setHandImpedanceMode` for `true` and `false`, and the frame of
`getBodyCompositionData` for every profile and impedance. -/
theorem frames_carry_calculateChecksum :
    (checksumByte enterImpedanceMode.command = 0x30 ∧
      calculateChecksum enterImpedanceMode.command enterImpedanceMode.command.length = 0x30) ∧
    (checksumByte queryImpedanceStatus.command = 0x32 ∧
      calculateChecksum queryImpedanceStatus.command queryImpedanceStatus.command.length
        = 0x32) ∧
    (checksumByte readImpedanceMode.command = 0x14 ∧
      calculateChecksum readImpedanceMode.command readImpedanceMode.command.length = 0x14) ∧
    (checksumByte getBodyCompositionLevel.command = 0x34 ∧
      calculateChecksum getBodyCompositionLevel.command
        getBodyCompositionLevel.command.length = 0x34) ∧
    (∀ enable : Bool,
      checksumByte (setHandImpedanceMode.command enable)
        = calculateChecksum (setHandImpedanceMode.command enable)
            (setHandImpedanceMode.command enable).length) ∧
    (∀ (user : UserInfo) (impedance : Nat),
      checksumByte (getBodyCompositionData.command user impedance)
        = calculateChecksum (getBodyCompositionData.command user impedance)
            (getBodyCompositionData.command user impedance).length) := by
  refine ⟨by decide, by decide, by decide, by decide, by decide, ?_⟩
  intro user impedance
  exact checksum_set _ 11 rfl

/-- C4 as stated fails: the frame of `enterImpedanceMode` has 7 bytes and its
declared-length byte is 5. -/
theorem declared_length_is_not_total :
    enterImpedanceMode.command.length = 7 ∧
    enterImpedanceMode.command.getD 1 0 = 5 ∧
    enterImpedanceMode.command.getD 1 0 ≠ enterImpedanceMode.command.length := by
  decide

/-- C4 amended: in every command frame the driver builds, the declared-length
byte (index 1) is the frame's total byte count minus 2, the number of bytes
that follow the length byte: 5 of 7 for enter impedance mode and query status,
10 of 12 for set and read mode, 11 of 13 for compute composition, 4 of 6 for
compute levels. -/
theorem declared_length_is_total_minus_two :
    (enterImpedanceMode.command.getD 1 0 = 5 ∧ enterImpedanceMode.command.length = 7) ∧
    (queryImpedanceStatus.command.getD 1 0 = 5 ∧ queryImpedanceStatus.command.length = 7) ∧
    (∀ enable : Bool,
      (setHandImpedanceMode.command enable).getD 1 0 = 10 ∧
      (setHandImpedanceMode.command enable).length = 12) ∧
    (readImpedanceMode.command.getD 1 0 = 10 ∧ readImpedanceMode.command.length = 12) ∧
    (∀ (user : UserInfo) (impedance : Nat),
      (getBodyCompositionData.command user impedance).getD 1 0 = 11 ∧
      (getBodyCompositionData.command user impedance).length = 13) ∧
    (getBodyCompositionLevel.command.getD 1 0 = 4 ∧
      getBodyCompositionLevel.command.length = 6) := by
  refine ⟨by decide, by decide, by decide, by decide, ?_, by decide⟩
  intro user impedance
  exact ⟨rfl, rfl⟩

/-! ## Lemmas on the transaction engine -/

theorem sendCommand.drain_sent (ch : Channel) :
    ∀ (fuel : Nat) (w w1 : World), sendCommand.drain ch fuel w = .ok w1 →
      w1.sent = w.sent ∧ w1.now = w.now := by
  intro fuel
  induction fuel with
  | zero => intro w w1 h; simp [sendCommand.drain] at h
  | succ k ih =>
    intro w w1 h
    simp only [sendCommand.drain] at h
    split at h
    · have := ih _ _ h
      simpa using this
    · simp only [Except.ok.injEq] at h
      subst h
      exact ⟨rfl, rfl⟩

theorem getD_set_lt (response : List Nat) (k v i : Nat) (hv : v < 256)
    (hi : i ≠ k → response.getD i 0 < 256) : (response.set k v).getD i 0 < 256 := by
  rw [List.getD_eq_getElem?_getD, List.getElem?_set]
  by_cases hik : k = i
  · subst hik
    by_cases hk : k < response.length
    · simp [hk, hv]
    · simp [hk]
  · have := hi (fun h => hik h.symm)
    rw [List.getD_eq_getElem?_getD] at this
    simpa [hik] using this

theorem sendCommand.receive_spec (ch : Channel) (startTime expectedLen : Nat) :
    ∀ (fuel : Nat) (w : World) (bytesRead : Nat) (response : List Nat)
      (n : Nat) (r : List Nat) (w1 : World),
      sendCommand.receive ch startTime expectedLen fuel w bytesRead response = .ok (n, r, w1) →
      bytesRead ≤ expectedLen →
      (∀ i, i < bytesRead → response.getD i 0 < 256) →
      w1.sent = w.sent ∧ r.length = response.length ∧ n ≤ expectedLen ∧
        ∀ i, i < n → r.getD i 0 < 256 := by
  intro fuel
  induction fuel with
  | zero => intro w b resp n r w1 h; simp [sendCommand.receive] at h
  | succ k ih =>
    intro w b resp n r w1 h hb hbytes
    simp only [sendCommand.receive] at h
    split at h
    · rename_i hcond
      split at h
      · split at h
        · have := ih _ _ _ _ _ _ h (by omega) (by
            intro i hi
            apply getD_set_lt _ _ _ _ (Nat.mod_lt _ (by decide))
            intro hne
            exact hbytes i (by omega))
          simpa [delay] using this
        · simp at h
      · have := ih _ _ _ _ _ _ h hb hbytes
        simpa [delay] using this
    · simp only [Except.ok.injEq, Prod.mk.injEq] at h
      obtain ⟨h1, h2, h3⟩ := h
      subst h1 h2 h3
      exact ⟨rfl, rfl, hb, hbytes⟩

/-- What a returning `sendCommand` guarantees: the frame was written (it is the
last entry of the log), the buffer kept its size, and on success its first
`expectedLen` cells hold bytes. -/
theorem sendCommand_spec (ch : Channel) (fuel : Nat) (w : World) (command : List Nat)
    (cmdLen : Nat) (response : List Nat) (expectedLen : Nat)
    (ok : Bool) (r : List Nat) (w1 : World)
    (h : sendCommand ch fuel w command cmdLen response expectedLen = .ok (ok, r, w1)) :
    w1.sent = w.sent ++ [command.take cmdLen] ∧ r.length = response.length ∧
      (ok = true → ∀ i, i < expectedLen → r.getD i 0 < 256) := by
  unfold sendCommand at h
  split at h
  · simp at h
  · rename_i w0 hd
    have hs := (sendCommand.drain_sent ch fuel w w0 hd).1
    simp only at h
    split at h
    · simp at h
    · rename_i n r0 w3 hr
      simp only [Except.ok.injEq, Prod.mk.injEq] at h
      obtain ⟨h1, h2, h3⟩ := h
      rw [h2, h3] at hr
      have := sendCommand.receive_spec ch _ expectedLen fuel _ 0 response n r w1 hr
        (Nat.zero_le _) (fun i hi => absurd hi (Nat.not_lt_zero i))
      refine ⟨?_, this.2.1, ?_⟩
      · rw [this.1, hs]
      · intro hok i hi
        rw [← h1] at hok
        have hn : n = expectedLen := of_decide_eq_true hok
        exact this.2.2.2 i (by omega)

theorem be16_eq (hi lo : Nat) (hlo : lo < 256) (hhi : hi < 256) :
    be16 hi lo = 256 * hi + lo := by
  unfold be16
  have h := Nat.mul_add_lt_is_or (i := 8) (b := lo) (by simpa using hlo) hi
  rw [Nat.shiftLeft_eq, Nat.mul_comm, ← h]
  norm_num
  omega

/-- The receive loop neither reads nor changes the log of written frames. -/
theorem sendCommand.receive_sent_irrelevant (ch : Channel) (startTime expectedLen : Nat)
    (s : List (List Nat)) :
    ∀ (fuel : Nat) (w : World) (bytesRead : Nat) (response : List Nat),
      sendCommand.receive ch startTime expectedLen fuel { w with sent := s } bytesRead response
        = (sendCommand.receive ch startTime expectedLen fuel w bytesRead response).map
            (fun x => (x.1, x.2.1, { x.2.2 with sent := s })) := by
  intro fuel
  induction fuel with
  | zero => intro w b r; rfl
  | succ k ih =>
    intro w b r
    simp only [sendCommand.receive, millis]
    split
    · split
      · split
        · exact ih (delay 1 (delay 2
            { w with availableCalls := w.availableCalls + 1, readCalls := w.readCalls + 1 }))
            _ _
        · rfl
      · exact ih (delay 1 { w with availableCalls := w.availableCalls + 1 }) _ _
    · rfl

/-- The outcome of `sendCommand` depends on the frame only through the log: it
is the outcome for the empty frame with the frame appended to the log. -/
theorem sendCommand_frame_irrelevant (ch : Channel) (fuel : Nat) (w : World)
    (command : List Nat) (cmdLen : Nat) (response : List Nat) (expectedLen : Nat) :
    sendCommand ch fuel w command cmdLen response expectedLen
      = (sendCommand ch fuel w [] 0 response expectedLen).map
          (fun x => (x.1, x.2.1, { x.2.2 with sent := w.sent ++ [command.take cmdLen] })) := by
  unfold sendCommand
  cases hd : sendCommand.drain ch fuel w with
  | error e => rfl
  | ok w0 =>
    have hs := sendCommand.drain_sent ch fuel w w0 hd
    dsimp only
    have e1 := sendCommand.receive_sent_irrelevant ch (w0.now % 2 ^ 32) expectedLen
      (w0.sent ++ [command.take cmdLen]) fuel w0 0 response
    have e2 := sendCommand.receive_sent_irrelevant ch (w0.now % 2 ^ 32) expectedLen
      (w0.sent ++ [List.take 0 []]) fuel w0 0 response
    simp only [millis] at e1 e2 ⊢
    rw [e1, e2]
    cases sendCommand.receive ch (w0.now % 2 ^ 32) expectedLen fuel w0 0 response with
    | error e => rfl
    | ok v => simp [Except.map, hs.1]

theorem sendCommand_replying_nil :
    sendCommand (Channel.replying sampleCompositionResponse) 30 World.initial [] 0
      (List.replicate 24 0) 24
      = .ok (true, sampleCompositionResponse,
          { availableCalls := 25, readCalls := 24, now := 72, sent := [[]] }) := by
  decide

/-- On the port `Channel.replying sampleCompositionResponse`, started in the
initial environment, `sendCommand` for 24 bytes writes the frame and returns
the sample response. -/
theorem sendCommand_replying (command : List Nat) (cmdLen : Nat) :
    sendCommand (Channel.replying sampleCompositionResponse) 30 World.initial command cmdLen
      (List.replicate 24 0) 24
      = .ok (true, sampleCompositionResponse,
          { availableCalls := 25, readCalls := 24, now := 72,
            sent := [command.take cmdLen] }) := by
  rw [sendCommand_frame_irrelevant, sendCommand_replying_nil]
  rfl

/-! ## Lemmas on `getBodyCompositionData` -/

/-- Past its five checks, every outcome of `getBodyCompositionData` is the
outcome of `sendCommand` on the built frame. -/
theorem getBodyCompositionData_sends (ch : Channel) (fuel : Nat) (w : World) (user : UserInfo)
    (impedance : Nat) (result : BodyComposition)
    (hi : ¬ (impedance = 0 ∨ impedance ≥ 0xFFF0))
    (hh : ¬ (user.height < 90 ∨ user.height > 220))
    (hw : ¬ (user.weight < 10 ∨ user.weight > 200))
    (ha : ¬ (user.age < 6 ∨ user.age > 99)) :
    (∀ e, getBodyCompositionData ch fuel w user impedance result = .error e ↔
      sendCommand ch fuel w (getBodyCompositionData.command user impedance) 13
        (List.replicate 24 0) 24 = .error e) ∧
    (∀ ok res w1, getBodyCompositionData ch fuel w user impedance result = .ok (ok, res, w1) →
      ∃ b resp, sendCommand ch fuel w (getBodyCompositionData.command user impedance) 13
        (List.replicate 24 0) 24 = .ok (b, resp, w1)) := by
  have hlen : (getBodyCompositionData.command user impedance).length = 13 := rfl
  have hrep : (List.replicate 24 0 : List Nat).length = 24 := rfl
  unfold getBodyCompositionData
  rw [if_neg hi, if_neg hh, if_neg hw, if_neg ha]
  simp only [hlen, hrep]
  generalize sendCommand ch fuel w (getBodyCompositionData.command user impedance) 13
    (List.replicate 24 0) 24 = sc
  rcases sc with e0 | ⟨b, resp, w2⟩
  · simp
  · cases b
    · simp
    · dsimp only
      constructor
      · intro e
        simp only [reduceCtorEq, iff_false]
        split
        · split <;> simp
        · simp
      · intro ok res w1 h
        refine ⟨true, resp, ?_⟩
        split at h
        · split at h <;> simp only [Except.ok.injEq, Prod.mk.injEq] at h <;> rw [h.2.2]
        · simp only [Except.ok.injEq, Prod.mk.injEq] at h
          rw [h.2.2]

/-- Past its five checks, `getBodyCompositionData` decodes a complete response
with the preamble 0x5A, 0x16 and status 0. -/
theorem getBodyCompositionData_decodes (ch : Channel) (fuel : Nat) (w : World)
    (user : UserInfo) (impedance : Nat) (result : BodyComposition)
    (response : List Nat) (w1 : World)
    (hi : ¬ (impedance = 0 ∨ impedance ≥ 0xFFF0))
    (hh : ¬ (user.height < 90 ∨ user.height > 220))
    (hw : ¬ (user.weight < 10 ∨ user.weight > 200))
    (ha : ¬ (user.age < 6 ∨ user.age > 99))
    (hsend : sendCommand ch fuel w (getBodyCompositionData.command user impedance) 13
      (List.replicate 24 0) 24 = .ok (true, response, w1))
    (h0 : response.getD 0 0 = 0x5A) (h1 : response.getD 1 0 = 0x16)
    (h4 : response.getD 4 0 = 0x00) :
    getBodyCompositionData ch fuel w user impedance result
      = .ok (true, getBodyCompositionData.decode user.weight response, w1) := by
  have hlen : (getBodyCompositionData.command user impedance).length = 13 := rfl
  have hrep : (List.replicate 24 0 : List Nat).length = 24 := rfl
  unfold getBodyCompositionData
  rw [if_neg hi, if_neg hh, if_neg hw, if_neg ha]
  simp only [hlen, hrep, hsend]
  rw [if_pos ⟨h0, h1⟩, if_neg (not_not.mpr h4)]

theorem be16_split (v : Nat) (hv : v < 65536) : be16 (v / 256) (v % 256) = v := by
  rw [be16_eq _ _ (Nat.mod_lt _ (by decide)) (by omega)]
  omega

theorem byte_split (x : Nat) (hx : x < 65536) :
    256 * ((x >>> 8) % 256) + (x &&& 0xFF) % 256 = x := by
  have h1 : x &&& 0xFF = x % 256 := Nat.and_pow_two_sub_one_eq_mod x 8
  rw [h1, Nat.shiftRight_eq_div_pow]
  norm_num
  omega

theorem parseImpedanceData.compute_valid (ch : Channel) (fuel : Nat) (w : World)
    (user : UserInfo) (rawImpedance : Nat) (report : ImpedanceReport) (w1 : World)
    (h : parseImpedanceData.compute ch fuel w user rawImpedance = .ok (report, w1)) :
    ∃ c l, report = .valid rawImpedance c l := by
  unfold parseImpedanceData.compute at h
  split at h
  · simp at h
  · split at h
    · simp at h
    · simp only [Except.ok.injEq, Prod.mk.injEq] at h
      exact ⟨_, _, h.1.symm⟩
  · simp only [Except.ok.injEq, Prod.mk.injEq] at h
    exact ⟨_, _, h.1.symm⟩

/-! ## Impedance classification -/

/-- C5: in `parseImpedanceData`, once the impedance status is 2 (success), the
raw impedance `v = (data[9] << 8) | data[10]` is classified totally and
exclusively over 0x0000..0xFFFF.  For every 16-bit `v`: if `v` is 0xFFFF,
0xFFF1 or 0xFFF2 the function reports the contact failure (Invalid) and
returns; if `v = 0` it reports zero impedance (Pending) and returns; for every
other `v` it runs the composition branch on `v`, every report of which is
`valid v ..` (Valid).  Every report is exactly one of the three, each only for
its own values of `v`, and in the Invalid and Pending cases the environment is
unchanged: only a Valid value leads to a composition request. -/
theorem parseImpedanceData_classification (ch : Channel) (fuel : Nat) (w : World)
    (user : UserInfo) (data : List Nat) (v : Nat) (hv : v < 65536)
    (h9 : data.getD 9 0 = v / 256) (h10 : data.getD 10 0 = v % 256)
    (hs : ((data.getD 5 0 >>> 4) &&& 0x0F) % 256 = 2) :
    ((v = 0xFFFF ∨ v = 0xFFF1 ∨ v = 0xFFF2) →
      parseImpedanceData ch fuel w user data = .ok (.contactFailure, w)) ∧
    (v = 0 → parseImpedanceData ch fuel w user data = .ok (.zeroImpedance, w)) ∧
    (¬ (v = 0xFFFF ∨ v = 0xFFF1 ∨ v = 0xFFF2) → v ≠ 0 →
      parseImpedanceData ch fuel w user data
        = parseImpedanceData.compute ch fuel w user v) ∧
    (∀ report w1, parseImpedanceData ch fuel w user data = .ok (report, w1) →
      (report = .contactFailure ∧ (v = 0xFFFF ∨ v = 0xFFF1 ∨ v = 0xFFF2) ∧ w1 = w) ∨
      (report = .zeroImpedance ∧ v = 0 ∧ w1 = w) ∨
      ((∃ c l, report = .valid v c l) ∧ ¬ (v = 0xFFFF ∨ v = 0xFFF1 ∨ v = 0xFFF2) ∧ v ≠ 0)) := by
  have hraw : be16 (data.getD 9 0) (data.getD 10 0) = v := by
    rw [h9, h10]; exact be16_split v hv
  have hparse : parseImpedanceData ch fuel w user data =
      if v = 0xFFFF ∨ v = 0xFFF1 ∨ v = 0xFFF2 then .ok (.contactFailure, w)
      else if v = 0 then .ok (.zeroImpedance, w)
      else parseImpedanceData.compute ch fuel w user v := by
    unfold parseImpedanceData
    simp only [hs, hraw]
    rfl
  refine ⟨?_, ?_, ?_, ?_⟩
  · intro h
    rw [hparse, if_pos h]
  · intro h
    rw [hparse, if_neg (by omega), if_pos h]
  · intro h h0
    rw [hparse, if_neg h, if_neg h0]
  · intro report w1 h
    rw [hparse] at h
    by_cases hsent : v = 0xFFFF ∨ v = 0xFFF1 ∨ v = 0xFFF2
    · rw [if_pos hsent] at h
      simp only [Except.ok.injEq, Prod.mk.injEq] at h
      exact Or.inl ⟨h.1.symm, hsent, h.2.symm⟩
    · rw [if_neg hsent] at h
      by_cases h0 : v = 0
      · rw [if_pos h0] at h
        simp only [Except.ok.injEq, Prod.mk.injEq] at h
        exact Or.inr (Or.inl ⟨h.1.symm, h0, h.2.symm⟩)
      · rw [if_neg h0] at h
        exact Or.inr (Or.inr ⟨parseImpedanceData.compute_valid ch fuel w user v report w1 h,
          hsent, h0⟩)

/-- C5 at three status responses: raw bytes FF FF are reported as a contact
failure, raw bytes 00 00 as zero impedance, and raw bytes 01 F4 (500) run the
composition branch on 500. -/
theorem parseImpedanceData_classification_witness :
    parseImpedanceData Channel.silent 0 World.initial defaultUser (statusResponse 0xFF 0xFF)
      = .ok (.contactFailure, World.initial) ∧
    parseImpedanceData Channel.silent 0 World.initial defaultUser (statusResponse 0x00 0x00)
      = .ok (.zeroImpedance, World.initial) ∧
    parseImpedanceData (Channel.replying sampleCompositionResponse) 30 World.initial
        defaultUser (statusResponse 0x01 0xF4)
      = parseImpedanceData.compute (Channel.replying sampleCompositionResponse) 30
          World.initial defaultUser 500 :=
  ⟨(parseImpedanceData_classification Channel.silent 0 World.initial defaultUser
      (statusResponse 0xFF 0xFF) 0xFFFF (by decide) (by decide) (by decide) (by decide)).1
      (by decide),
   (parseImpedanceData_classification Channel.silent 0 World.initial defaultUser
      (statusResponse 0x00 0x00) 0 (by decide) (by decide) (by decide) (by decide)).2.1
      (by decide),
   (parseImpedanceData_classification (Channel.replying sampleCompositionResponse) 30
      World.initial defaultUser (statusResponse 0x01 0xF4) 500
      (by decide) (by decide) (by decide) (by decide)).2.2.1 (by decide) (by decide)⟩

/-! ## Composition request: impedance and profile checks -/

/-- C6 as stated fails: the raw impedance 0xFFF0 is classified Valid by
`parseImpedanceData` (its report is `valid 0xFFF0 ..`), the default profile
passes the range checks, and `getBodyCompositionData` rejects that impedance:
it returns `false` with the environment unchanged, so no frame was written,
on a port where the impedance 500 is accepted and answered. -/
theorem valid_impedance_rejected :
    parseImpedanceData (Channel.replying sampleCompositionResponse) 30 World.initial
        defaultUser (statusResponse 0xFF 0xF0)
      = .ok (.valid 0xFFF0 none none, World.initial) ∧
    ¬ (defaultUser.height < 90 ∨ defaultUser.height > 220) ∧
    ¬ (defaultUser.weight < 10 ∨ defaultUser.weight > 200) ∧
    ¬ (defaultUser.age < 6 ∨ defaultUser.age > 99) ∧
    getBodyCompositionData (Channel.replying sampleCompositionResponse) 30 World.initial
        defaultUser 0xFFF0 zeroComposition
      = .ok (false, zeroComposition, World.initial) := by
  refine ⟨by rfl, by norm_num [defaultUser], by norm_num [defaultUser],
    by norm_num [defaultUser], by rfl⟩

/-- C6 amended: for every raw impedance from 0x0001 to 0xFFEF (the values
`parseImpedanceData` classifies as Valid that are below 0xFFF0) and every
profile that passes range validation, `getBodyCompositionData` does not reject
the impedance: it builds the composition frame and submits it to `sendCommand`.
Its run fails exactly when that `sendCommand` call fails, and whenever it
returns, `sendCommand` returned on the built frame and the frame is the last
one written. -/
theorem valid_impedance_submitted (ch : Channel) (fuel : Nat) (w : World) (user : UserInfo)
    (v : Nat) (result : BodyComposition)
    (hv0 : v ≠ 0) (hv : v < 0xFFF0)
    (hh : ¬ (user.height < 90 ∨ user.height > 220))
    (hw : ¬ (user.weight < 10 ∨ user.weight > 200))
    (ha : ¬ (user.age < 6 ∨ user.age > 99)) :
    (∀ e, getBodyCompositionData ch fuel w user v result = .error e ↔
      sendCommand ch fuel w (getBodyCompositionData.command user v) 13
        (List.replicate 24 0) 24 = .error e) ∧
    (∀ ok res w1, getBodyCompositionData ch fuel w user v result = .ok (ok, res, w1) →
      (∃ b resp, sendCommand ch fuel w (getBodyCompositionData.command user v) 13
        (List.replicate 24 0) 24 = .ok (b, resp, w1)) ∧
      w1.sent = w.sent ++ [getBodyCompositionData.command user v]) := by
  have hi : ¬ (v = 0 ∨ v ≥ 0xFFF0) := by omega
  have hs := getBodyCompositionData_sends ch fuel w user v result hi hh hw ha
  refine ⟨hs.1, ?_⟩
  intro ok res w1 h
  obtain ⟨b, resp, hsc⟩ := hs.2 ok res w1 h
  refine ⟨⟨b, resp, hsc⟩, ?_⟩
  have := (sendCommand_spec ch fuel w _ 13 _ 24 b resp w1 hsc).1
  rw [this]
  rfl

/-- C6 amended, at the impedance 500 and the default profile on a port that
answers with the sample response: the call returns `true` and the frame
written is the composition frame. -/
theorem valid_impedance_submitted_witness :
    (500 : Nat) ≠ 0 ∧ (500 : Nat) < 0xFFF0 ∧
    (∃ res w1,
      getBodyCompositionData (Channel.replying sampleCompositionResponse) 30 World.initial
        defaultUser 500 zeroComposition = .ok (true, res, w1) ∧
      w1.sent = World.initial.sent ++ [getBodyCompositionData.command defaultUser 500]) :=
  ⟨by decide, by decide, _, _,
    getBodyCompositionData_decodes (Channel.replying sampleCompositionResponse) 30
      World.initial defaultUser 500 zeroComposition _ _ (by decide)
      (by norm_num [defaultUser]) (by norm_num [defaultUser]) (by norm_num [defaultUser])
      (sendCommand_replying _ 13) (by decide) (by decide) (by decide),
    ((valid_impedance_submitted (Channel.replying sampleCompositionResponse) 30 World.initial
      defaultUser 500 zeroComposition (by decide) (by decide)
      (by norm_num [defaultUser]) (by norm_num [defaultUser]) (by norm_num [defaultUser])).2
      true _ _
      (getBodyCompositionData_decodes (Channel.replying sampleCompositionResponse) 30
        World.initial defaultUser 500 zeroComposition _ _ (by decide)
        (by norm_num [defaultUser]) (by norm_num [defaultUser]) (by norm_num [defaultUser])
        (sendCommand_replying _ 13) (by decide) (by decide) (by decide))).2⟩

/-- C7: for every acceptable impedance, `getBodyCompositionData` returns
failure without building or transmitting any frame (result record and
environment unchanged) exactly when height < 90 or height > 220 or
weight < 10.0 or weight > 200.0 or age < 6 or age > 99; the bounds are
inclusive.  When none of these holds, every returning call has written the
composition frame. -/
theorem profile_range_validation (ch : Channel) (fuel : Nat) (w : World) (user : UserInfo)
    (impedance : Nat) (result : BodyComposition)
    (hi : ¬ (impedance = 0 ∨ impedance ≥ 0xFFF0)) :
    (getBodyCompositionData ch fuel w user impedance result = .ok (false, result, w) ↔
      (user.height < 90 ∨ user.height > 220 ∨ user.weight < 10 ∨ user.weight > 200 ∨
        user.age < 6 ∨ user.age > 99)) ∧
    (¬ (user.height < 90 ∨ user.height > 220 ∨ user.weight < 10 ∨ user.weight > 200 ∨
        user.age < 6 ∨ user.age > 99) →
      ∀ ok res w1, getBodyCompositionData ch fuel w user impedance result = .ok (ok, res, w1) →
        w1.sent = w.sent ++ [getBodyCompositionData.command user impedance]) := by
  have hacc : ¬ (user.height < 90 ∨ user.height > 220 ∨ user.weight < 10 ∨ user.weight > 200 ∨
        user.age < 6 ∨ user.age > 99) →
      ∀ ok res w1, getBodyCompositionData ch fuel w user impedance result = .ok (ok, res, w1) →
        w1.sent = w.sent ++ [getBodyCompositionData.command user impedance] := by
    intro hr ok res w1 h
    have hh : ¬ (user.height < 90 ∨ user.height > 220) := fun h => hr (by tauto)
    have hw : ¬ (user.weight < 10 ∨ user.weight > 200) := fun h => hr (by tauto)
    have ha : ¬ (user.age < 6 ∨ user.age > 99) := fun h => hr (by tauto)
    obtain ⟨b, resp, hsc⟩ :=
      (getBodyCompositionData_sends ch fuel w user impedance result hi hh hw ha).2 ok res w1 h
    rw [(sendCommand_spec ch fuel w _ 13 _ 24 b resp w1 hsc).1]
    rfl
  refine ⟨⟨?_, ?_⟩, hacc⟩
  · intro h
    by_contra hr
    have := hacc hr false result w h
    simp at this
  · intro hr
    unfold getBodyCompositionData
    rw [if_neg hi]
    by_cases hh : user.height < 90 ∨ user.height > 220
    · rw [if_pos hh]
    · rw [if_neg hh]
      by_cases hw : user.weight < 10 ∨ user.weight > 200
      · rw [if_pos hw]
      · rw [if_neg hw]
        by_cases ha : user.age < 6 ∨ user.age > 99
        · rw [if_pos ha]
        · exact absurd hr (by tauto)

/-- C7 at the boundary values: height 89 and weight 9.9 are rejected with
nothing written; height 220 with weight 200.0 is accepted, and on a port that
answers with the sample response the call returns `true` after writing the
composition frame. -/
theorem profile_range_validation_witness :
    ¬ ((500 : Nat) = 0 ∨ (500 : Nat) ≥ 0xFFF0) ∧
    getBodyCompositionData (Channel.replying sampleCompositionResponse) 30 World.initial
        shortUser 500 zeroComposition = .ok (false, zeroComposition, World.initial) ∧
    getBodyCompositionData (Channel.replying sampleCompositionResponse) 30 World.initial
        lightUser 500 zeroComposition = .ok (false, zeroComposition, World.initial) ∧
    (∃ res w1,
      getBodyCompositionData (Channel.replying sampleCompositionResponse) 30 World.initial
        upperBoundUser 500 zeroComposition = .ok (true, res, w1) ∧
      w1.sent = World.initial.sent ++ [getBodyCompositionData.command upperBoundUser 500]) :=
  ⟨by decide,
   (profile_range_validation (Channel.replying sampleCompositionResponse) 30 World.initial
      shortUser 500 zeroComposition (by decide)).1.2 (Or.inl (by decide)),
   (profile_range_validation (Channel.replying sampleCompositionResponse) 30 World.initial
      lightUser 500 zeroComposition (by decide)).1.2
      (Or.inr (Or.inr (Or.inl (by norm_num [lightUser])))),
   _, _,
   getBodyCompositionData_decodes (Channel.replying sampleCompositionResponse) 30
      World.initial upperBoundUser 500 zeroComposition _ _ (by decide)
      (by decide) (by decide) (by decide)
      (sendCommand_replying _ 13) (by decide) (by decide) (by decide),
   (profile_range_validation (Channel.replying sampleCompositionResponse) 30 World.initial
      upperBoundUser 500 zeroComposition (by decide)).2 (by decide) true _ _
      (getBodyCompositionData_decodes (Channel.replying sampleCompositionResponse) 30
        World.initial upperBoundUser 500 zeroComposition _ _ (by decide)
        (by decide) (by decide) (by decide)
        (sendCommand_replying _ 13) (by decide) (by decide) (by decide))⟩

/-- C8, the code at the gender byte 2: the call is not refused.  On a port that
answers with the sample response, `getBodyCompositionData` for the default
profile with gender 2 returns `true`, and the frame it wrote carries the
gender byte 2 at index 8. -/
theorem gender_not_validated :
    genderTwoUser.gender = 2 ∧
    (∃ res w1,
      getBodyCompositionData (Channel.replying sampleCompositionResponse) 30 World.initial
        genderTwoUser 500 zeroComposition = .ok (true, res, w1) ∧
      w1.sent = [getBodyCompositionData.command genderTwoUser 500]) ∧
    (getBodyCompositionData.command genderTwoUser 500).getD 8 0 = 2 :=
  ⟨rfl,
   ⟨_, _,
    getBodyCompositionData_decodes (Channel.replying sampleCompositionResponse) 30
      World.initial genderTwoUser 500 zeroComposition _ _ (by decide)
      (by decide) (by decide) (by decide)
      (sendCommand_replying _ 13) (by decide) (by decide) (by decide),
    rfl⟩,
   rfl⟩

/-! ## Lemmas on floating-point rounding -/

theorem roundHalfEven_of_near (x : ℚ) (n : ℤ) (h : |x - n| < 1 / 2) : roundHalfEven x = n := by
  rw [abs_lt] at h
  unfold roundHalfEven
  have hf1 : (⌊x⌋ : ℚ) ≤ x := Int.floor_le x
  have hf2 : x < ⌊x⌋ + 1 := Int.lt_floor_add_one x
  by_cases h1 : x - ⌊x⌋ < 1 / 2
  · rw [if_pos h1]
    have : (⌊x⌋ : ℚ) < n + 1 := by linarith
    have : (n : ℚ) < ⌊x⌋ + 1 := by linarith
    have a : ⌊x⌋ < n + 1 := by exact_mod_cast ‹(⌊x⌋ : ℚ) < n + 1›
    have b : n < ⌊x⌋ + 1 := by exact_mod_cast ‹(n : ℚ) < ⌊x⌋ + 1›
    omega
  · rw [if_neg h1]
    have h1' : 1 / 2 ≤ x - ⌊x⌋ := not_lt.mp h1
    have a : (⌊x⌋ : ℚ) < n := by linarith [h.2]
    have b : (n : ℚ) < ⌊x⌋ + 2 := by linarith [h.1]
    have a' : ⌊x⌋ < n := by exact_mod_cast a
    have b' : n < ⌊x⌋ + 2 := by exact_mod_cast b
    have hn : n = ⌊x⌋ + 1 := by omega
    by_cases h2 : 1 / 2 < x - ⌊x⌋
    · rw [if_pos h2, hn]
    · exfalso
      have : x - ⌊x⌋ = 1 / 2 := le_antisymm (not_lt.mp h2) h1'
      rw [hn] at h
      push_cast at h
      linarith [h.1]

theorem roundHalfEven_le (x : ℚ) (m : ℤ) (h : x ≤ m) : roundHalfEven x ≤ m := by
  have hf1 : (⌊x⌋ : ℚ) ≤ x := Int.floor_le x
  have hfm : ⌊x⌋ ≤ m := by exact_mod_cast le_trans hf1 h
  unfold roundHalfEven
  by_cases h1 : x - ⌊x⌋ < 1 / 2
  · rw [if_pos h1]; exact hfm
  · have h1' : 1 / 2 ≤ x - ⌊x⌋ := not_lt.mp h1
    have hlt : (⌊x⌋ : ℚ) < m := by linarith
    have hlt' : ⌊x⌋ < m := by exact_mod_cast hlt
    rw [if_neg h1]
    split_ifs <;> omega

theorem le_roundHalfEven (x : ℚ) (m : ℤ) (h : (m : ℚ) ≤ x) : m ≤ roundHalfEven x := by
  have hfm : m ≤ ⌊x⌋ := Int.le_floor.mpr h
  unfold roundHalfEven
  split_ifs <;> omega

theorem log_two_eq (x : ℚ) (e : ℤ) (hx : 0 < x) (hlo : (2 : ℚ) ^ e ≤ x)
    (hhi : x < (2 : ℚ) ^ (e + 1)) : Int.log 2 x = e := by
  have h1 : e ≤ Int.log 2 x :=
    (Int.zpow_le_iff_le_log (R := ℚ) (b := 2) (by norm_num) hx).mp (by exact_mod_cast hlo)
  have h2 : Int.log 2 x < e + 1 :=
    (Int.lt_zpow_iff_log_lt (R := ℚ) (b := 2) (by norm_num) hx).mp (by exact_mod_cast hhi)
  omega

/-- Evaluation of a rounding from the binade of `x` and the nearest integer
multiple of the unit in the last place. -/
theorem roundToBits_eq (p : Nat) (x : ℚ) (e n : ℤ) (hx : 0 < x) (hlo : (2 : ℚ) ^ e ≤ x)
    (hhi : x < (2 : ℚ) ^ (e + 1))
    (hn : |x / (2 : ℚ) ^ (e - ((p : ℤ) - 1)) - n| < 1 / 2) :
    roundToBits p x = (n : ℚ) * (2 : ℚ) ^ (e - ((p : ℤ) - 1)) := by
  unfold roundToBits
  rw [if_neg (ne_of_gt hx), abs_of_pos hx, log_two_eq x e hx hlo hhi,
    roundHalfEven_of_near _ n hn]

theorem abs_roundHalfEven_sub_le (x : ℚ) : |(roundHalfEven x : ℚ) - x| ≤ 1 / 2 := by
  have hf1 : (⌊x⌋ : ℚ) ≤ x := Int.floor_le x
  have hf2 : x < ⌊x⌋ + 1 := Int.lt_floor_add_one x
  rw [abs_le]
  unfold roundHalfEven
  by_cases h1 : x - ⌊x⌋ < 1 / 2
  · rw [if_pos h1]
    constructor <;> linarith
  · have h1' : 1 / 2 ≤ x - ⌊x⌋ := not_lt.mp h1
    rw [if_neg h1]
    by_cases h2 : 1 / 2 < x - ⌊x⌋
    · rw [if_pos h2]
      push_cast
      constructor <;> linarith
    · have he : x - ⌊x⌋ = 1 / 2 := le_antisymm (not_lt.mp h2) h1'
      rw [if_neg h2]
      split_ifs
      · constructor <;> linarith
      · push_cast
        constructor <;> linarith

/-- The unit in the last place used for `x` is positive. -/
theorem ulp_pos (p : Nat) (x : ℚ) : 0 < (2 : ℚ) ^ (Int.log 2 |x| - ((p : ℤ) - 1)) :=
  zpow_pos (by norm_num) _

/-- Rounding never passes a natural number below `2 ^ p` from below. -/
theorem roundToBits_le_natCast (p : Nat) (x : ℚ) (N : Nat) (hx : 0 < x) (hxN : x ≤ N)
    (hN : N < 2 ^ p) : roundToBits p x ≤ N := by
  have hlog : Int.log 2 x < (p : ℤ) := by
    apply (Int.lt_zpow_iff_log_lt (R := ℚ) (b := 2) (by norm_num) hx).mp
    have : (N : ℚ) < (2 : ℚ) ^ p := by exact_mod_cast hN
    rw [zpow_natCast]
    push_cast
    linarith
  obtain ⟨k, hk⟩ : ∃ k : Nat, (k : ℤ) = (p : ℤ) - 1 - Int.log 2 x :=
    ⟨((p : ℤ) - 1 - Int.log 2 x).toNat, Int.toNat_of_nonneg (by omega)⟩
  have hq : (2 : ℚ) ^ (Int.log 2 x - ((p : ℤ) - 1)) = ((2 : ℚ) ^ k)⁻¹ := by
    rw [← zpow_natCast, ← zpow_neg, hk]
    congr 1
    omega
  have hpos : (0 : ℚ) < (2 : ℚ) ^ k := pow_pos (by norm_num) k
  unfold roundToBits
  rw [if_neg (ne_of_gt hx), abs_of_pos hx, hq, div_inv_eq_mul]
  have hle : x * (2 : ℚ) ^ k ≤ ((N * 2 ^ k : ℤ) : ℚ) := by
    push_cast
    exact mul_le_mul_of_nonneg_right hxN (le_of_lt hpos)
  have hr := roundHalfEven_le _ _ hle
  have hr' : (roundHalfEven (x * (2 : ℚ) ^ k) : ℚ) ≤ (N : ℚ) * (2 : ℚ) ^ k := by
    exact_mod_cast hr
  rw [← div_eq_mul_inv, div_le_iff₀ hpos]
  exact hr'

/-- Rounding never passes a natural number from above. -/
theorem natCast_le_roundToBits (p : Nat) (x : ℚ) (N : Nat) (hx : 0 < x) (hNx : (N : ℚ) ≤ x)
    (hxp : x < (2 : ℚ) ^ p) : (N : ℚ) ≤ roundToBits p x := by
  have hlog : Int.log 2 x < (p : ℤ) := by
    apply (Int.lt_zpow_iff_log_lt (R := ℚ) (b := 2) (by norm_num) hx).mp
    rw [zpow_natCast]
    push_cast
    exact hxp
  obtain ⟨k, hk⟩ : ∃ k : Nat, (k : ℤ) = (p : ℤ) - 1 - Int.log 2 x :=
    ⟨((p : ℤ) - 1 - Int.log 2 x).toNat, Int.toNat_of_nonneg (by omega)⟩
  have hq : (2 : ℚ) ^ (Int.log 2 x - ((p : ℤ) - 1)) = ((2 : ℚ) ^ k)⁻¹ := by
    rw [← zpow_natCast, ← zpow_neg, hk]
    congr 1
    omega
  have hpos : (0 : ℚ) < (2 : ℚ) ^ k := pow_pos (by norm_num) k
  unfold roundToBits
  rw [if_neg (ne_of_gt hx), abs_of_pos hx, hq, div_inv_eq_mul]
  have hle : ((N * 2 ^ k : ℤ) : ℚ) ≤ x * (2 : ℚ) ^ k := by
    push_cast
    exact mul_le_mul_of_nonneg_right hNx (le_of_lt hpos)
  have hr := le_roundHalfEven _ _ hle
  have hr' : (N : ℚ) * (2 : ℚ) ^ k ≤ (roundHalfEven (x * (2 : ℚ) ^ k) : ℚ) := by
    exact_mod_cast hr
  rw [← div_eq_mul_inv, le_div_iff₀ hpos]
  exact hr'

/-- A natural number below `2 ^ p` is representable with `p` bits: rounding
leaves it as it is. -/
theorem roundToBits_natCast (p : Nat) (N : Nat) (hN : N < 2 ^ p) :
    roundToBits p (N : ℚ) = N := by
  by_cases h0 : N = 0
  · subst h0
    simp [roundToBits]
  · have hpos : (0 : ℚ) < N := by exact_mod_cast Nat.pos_of_ne_zero h0
    apply le_antisymm
    · exact roundToBits_le_natCast p N N hpos (le_refl _) hN
    · exact natCast_le_roundToBits p N N hpos (le_refl _) (by exact_mod_cast hN)

/-- The relative error of a rounding to `p` bits is at most `2 ^ (-p)`. -/
theorem abs_roundToBits_sub_le (p : Nat) (x : ℚ) (hx : 0 < x) :
    |roundToBits p x - x| ≤ x / (2 : ℚ) ^ p := by
  have hq := ulp_pos p x
  rw [abs_of_pos hx] at hq
  have hlog : (2 : ℚ) ^ Int.log 2 x ≤ x := by
    have := Int.zpow_log_le_self (R := ℚ) (b := 2) (by norm_num) hx
    exact_mod_cast this
  unfold roundToBits
  rw [if_neg (ne_of_gt hx), abs_of_pos hx]
  set q : ℚ := (2 : ℚ) ^ (Int.log 2 x - ((p : ℤ) - 1)) with hqdef
  have h1 : (roundHalfEven (x / q) : ℚ) * q - x = ((roundHalfEven (x / q) : ℚ) - x / q) * q := by
    field_simp
  rw [h1, abs_mul, abs_of_pos hq]
  have h2 := abs_roundHalfEven_sub_le (x / q)
  have h3 : q / 2 ≤ x / (2 : ℚ) ^ p := by
    have hq2 : q = (2 : ℚ) ^ Int.log 2 x * 2 / (2 : ℚ) ^ p := by
      rw [hqdef, zpow_sub₀ (by norm_num), zpow_sub₀ (by norm_num), zpow_natCast, zpow_one]
      field_simp
    rw [hq2]
    have hp : (0 : ℚ) < (2 : ℚ) ^ p := pow_pos (by norm_num) p
    rw [div_div, div_le_div_iff₀ (by positivity) hp]
    nlinarith
  calc |(roundHalfEven (x / q) : ℚ) - x / q| * q ≤ 1 / 2 * q :=
        mul_le_mul_of_nonneg_right h2 (le_of_lt hq)
    _ = q / 2 := by ring
    _ ≤ x / (2 : ℚ) ^ p := h3

/-! ## Round trip of the composition frame -/

/-- The `float` product of an accepted weight by 10 lies between 100 and
2000. -/
theorem toFloat_weight_bounds (weight : ℚ) (hw : ¬ (weight < 10 ∨ weight > 200)) :
    100 ≤ toFloat (weight * 10) ∧ toFloat (weight * 10) ≤ 2000 := by
  have h1 : (10 : ℚ) ≤ weight := le_of_not_lt (fun h => hw (Or.inl h))
  have h2 : weight ≤ 200 := le_of_not_lt (fun h => hw (Or.inr h))
  have hpos : (0 : ℚ) < weight * 10 := by linarith
  constructor
  · have := natCast_le_roundToBits 24 (weight * 10) 100 hpos (by push_cast; linarith)
      (by norm_num; linarith)
    simpa [toFloat] using this
  · have := roundToBits_le_natCast 24 (weight * 10) 2000 hpos (by push_cast; linarith)
      (by norm_num)
    simpa [toFloat] using this

/-- C9: for every accepted profile (height, weight, age in range, gender a
byte) and every 16-bit impedance, in particular every accepted one, reading
the 13-byte frame built by `getBodyCompositionData` at the offsets it was
written to recovers the inputs exactly: byte 4 is the height, the big-endian
bytes 5..6 are weight x 10, byte 7 is the age, byte 8 the gender, the
big-endian bytes 9..10 the impedance.  Height and weight x 10 are the whole
numbers the code truncates to: the floor of the height, and the floor of the
`float` product `user.weight * 10`, which lies between 100 and 2000. -/
theorem composition_frame_round_trip (user : UserInfo) (impedance : Nat)
    (himp : impedance < 65536) (hgender : user.gender < 256)
    (hh : ¬ (user.height < 90 ∨ user.height > 220))
    (hw : ¬ (user.weight < 10 ∨ user.weight > 200))
    (ha : ¬ (user.age < 6 ∨ user.age > 99)) :
    (getBodyCompositionData.command user impedance).length = 13 ∧
    (getBodyCompositionData.command user impedance).getD 4 0 = ⌊user.height⌋₊ ∧
    256 * (getBodyCompositionData.command user impedance).getD 5 0
      + (getBodyCompositionData.command user impedance).getD 6 0
        = ⌊toFloat (user.weight * 10)⌋₊ ∧
    be16 ((getBodyCompositionData.command user impedance).getD 5 0)
      ((getBodyCompositionData.command user impedance).getD 6 0)
        = ⌊toFloat (user.weight * 10)⌋₊ ∧
    (100 ≤ ⌊toFloat (user.weight * 10)⌋₊ ∧ ⌊toFloat (user.weight * 10)⌋₊ ≤ 2000) ∧
    (getBodyCompositionData.command user impedance).getD 7 0 = user.age ∧
    (getBodyCompositionData.command user impedance).getD 8 0 = user.gender ∧
    256 * (getBodyCompositionData.command user impedance).getD 9 0
      + (getBodyCompositionData.command user impedance).getD 10 0 = impedance ∧
    be16 ((getBodyCompositionData.command user impedance).getD 9 0)
      ((getBodyCompositionData.command user impedance).getD 10 0) = impedance := by
  have e4 : (getBodyCompositionData.command user impedance).getD 4 0
      = ⌊user.height⌋₊ % 256 := rfl
  have e5 : (getBodyCompositionData.command user impedance).getD 5 0
      = ((⌊toFloat (user.weight * 10)⌋₊ % 65536) >>> 8) % 256 := rfl
  have e6 : (getBodyCompositionData.command user impedance).getD 6 0
      = ((⌊toFloat (user.weight * 10)⌋₊ % 65536) &&& 0xFF) % 256 := rfl
  have e7 : (getBodyCompositionData.command user impedance).getD 7 0 = user.age % 256 := rfl
  have e8 : (getBodyCompositionData.command user impedance).getD 8 0
      = user.gender % 256 := rfl
  have e9 : (getBodyCompositionData.command user impedance).getD 9 0
      = (impedance >>> 8) % 256 := rfl
  have e10 : (getBodyCompositionData.command user impedance).getD 10 0
      = (impedance &&& 0xFF) % 256 := rfl
  have hheight : ⌊user.height⌋₊ ≤ 220 := by
    apply Nat.floor_le_of_le
    push_cast
    exact le_of_not_lt (fun h => hh (Or.inr h))
  have hbounds := toFloat_weight_bounds user.weight hw
  have hweight : ⌊toFloat (user.weight * 10)⌋₊ ≤ 2000 := by
    apply Nat.floor_le_of_le
    push_cast
    exact hbounds.2
  have hweight2 : 100 ≤ ⌊toFloat (user.weight * 10)⌋₊ := by
    apply Nat.le_floor
    push_cast
    exact hbounds.1
  have hwmod : ⌊toFloat (user.weight * 10)⌋₊ % 65536 = ⌊toFloat (user.weight * 10)⌋₊ :=
    Nat.mod_eq_of_lt (by omega)
  have hage : user.age % 256 = user.age := Nat.mod_eq_of_lt (by omega)
  have hw56 := byte_split ⌊toFloat (user.weight * 10)⌋₊ (by omega)
  have hi910 := byte_split impedance himp
  rw [e4, e5, e6, e7, e8, e9, e10, hwmod, hage, Nat.mod_eq_of_lt hgender,
    be16_eq _ _ (Nat.mod_lt _ (by decide)) (Nat.mod_lt _ (by decide)),
    be16_eq _ _ (Nat.mod_lt _ (by decide)) (Nat.mod_lt _ (by decide))]
  exact ⟨rfl, Nat.mod_eq_of_lt (by omega), hw56, hw56, ⟨hweight2, hweight⟩, rfl, rfl,
    hi910, hi910⟩

/-- The `float` product of the `float` nearest to 64.1 by 10 is 641: the exact
product 640.99998... is rounded up before it is truncated. -/
theorem toFloat_roundedWeight : toFloat (roundedWeightUser.weight * 10) = 641 := by
  have hx : roundedWeightUser.weight * 10 = 42008575 / 65536 := by
    norm_num [roundedWeightUser, defaultUser]
  rw [hx]
  unfold toFloat
  rw [roundToBits_eq 24 (42008575 / 65536) 9 10502144 (by norm_num) (by norm_num)
    (by norm_num) (by norm_num [abs_lt])]
  norm_num

/-- C9 at the default profile (175 cm, 64.0 kg, 21 years, male) and the
impedance 500, and at the weight 8401715 / 131072 (the `float` nearest to
64.1), whose bytes 5..6 hold 641. -/
theorem composition_frame_round_trip_witness :
    ((getBodyCompositionData.command defaultUser 500).getD 4 0 = ⌊defaultUser.height⌋₊ ∧
      256 * (getBodyCompositionData.command defaultUser 500).getD 5 0
        + (getBodyCompositionData.command defaultUser 500).getD 6 0
          = ⌊toFloat (defaultUser.weight * 10)⌋₊ ∧
      (getBodyCompositionData.command defaultUser 500).getD 7 0 = defaultUser.age ∧
      (getBodyCompositionData.command defaultUser 500).getD 8 0 = defaultUser.gender ∧
      256 * (getBodyCompositionData.command defaultUser 500).getD 9 0
        + (getBodyCompositionData.command defaultUser 500).getD 10 0 = 500) ∧
    256 * (getBodyCompositionData.command roundedWeightUser 500).getD 5 0
      + (getBodyCompositionData.command roundedWeightUser 500).getD 6 0 = 641 := by
  have h1 := composition_frame_round_trip defaultUser 500 (by decide) (by decide)
    (by decide) (by decide) (by decide)
  have h2 := composition_frame_round_trip roundedWeightUser 500 (by decide) (by decide)
    (by decide) (by norm_num [roundedWeightUser, defaultUser]) (by decide)
  refine ⟨⟨h1.2.1, h1.2.2.1, h1.2.2.2.2.2.1, h1.2.2.2.2.2.2.1, h1.2.2.2.2.2.2.2.1⟩, ?_⟩
  rw [h2.2.2.1, toFloat_roundedWeight]
  exact Nat.floor_ofNat 641

/-! ## Composition decode -/

/-- A quotient `raw / 10.0` of a 16-bit value, stored in a `float`, is within
0.001 of the exact quotient. -/
theorem tenthAsFloat_near (raw : Nat) (hraw : raw < 65536) :
    |tenthAsFloat raw - (raw : ℚ) / 10| ≤ 1 / 1000 := by
  by_cases h0 : raw = 0
  · subst h0
    simp [tenthAsFloat, toFloat, toDouble, roundToBits]
  · have hpos : (0 : ℚ) < (raw : ℚ) / 10 := by
      have : (0 : ℚ) < raw := by exact_mod_cast Nat.pos_of_ne_zero h0
      positivity
    have hle : (raw : ℚ) / 10 ≤ 65535 / 10 := by
      have : (raw : ℚ) ≤ 65535 := by exact_mod_cast Nat.le_of_lt_succ hraw
      linarith
    have h1 := abs_roundToBits_sub_le 53 ((raw : ℚ) / 10) hpos
    rw [abs_le] at h1
    norm_num at h1
    have hypos : 0 < roundToBits 53 ((raw : ℚ) / 10) := by linarith [h1.1]
    have h2 := abs_roundToBits_sub_le 24 (roundToBits 53 ((raw : ℚ) / 10)) hypos
    rw [abs_le] at h2
    norm_num at h2
    unfold tenthAsFloat toFloat toDouble
    rw [abs_le]
    constructor <;> linarith [h1.1, h1.2, h2.1, h2.2]

/-- A 16-bit integer stored in a `float` is stored exactly. -/
theorem toFloat_natCast (n : Nat) (hn : n < 65536) : toFloat (n : ℚ) = n :=
  roundToBits_natCast 24 n (by norm_num; omega)

/-- The byte 0x1F divided by 10.0 and stored in a `float` is 6501171 / 2097152,
the `float` nearest to 3.1. -/
theorem tenthAsFloat_31 : tenthAsFloat 31 = 6501171 / 2097152 := by
  unfold tenthAsFloat toFloat toDouble
  rw [roundToBits_eq 53 ((31 : Nat) / 10) 1 6980579422424269 (by norm_num) (by norm_num)
    (by norm_num) (by norm_num [abs_lt])]
  rw [roundToBits_eq 24 _ 1 13002342 (by norm_num) (by norm_num) (by norm_num)
    (by norm_num [abs_lt])]
  norm_num

/-- C10 as stated fails: the decoded fields are `float` values, not exact
rationals.  On the sample response, whose byte 11 is 0x1F, the call succeeds
with boneMass = 6501171 / 2097152 and not 31 / 10. -/
theorem composition_decode_not_exact :
    ∃ res w1,
      getBodyCompositionData (Channel.replying sampleCompositionResponse) 30 World.initial
        defaultUser 500 zeroComposition = .ok (true, res, w1) ∧
      sampleCompositionResponse.getD 11 0 = 0x1F ∧
      res.boneMass = 6501171 / 2097152 ∧
      res.boneMass ≠ ((sampleCompositionResponse.getD 11 0 : Nat) : ℚ) / 10 := by
  have hrun := getBodyCompositionData_decodes (Channel.replying sampleCompositionResponse) 30
    World.initial defaultUser 500 zeroComposition _ _ (by decide) (by decide) (by decide)
    (by decide) (sendCommand_replying _ 13) (by decide) (by decide) (by decide)
  have h11 : sampleCompositionResponse.getD 11 0 = 31 := by decide
  have hbone : (getBodyCompositionData.decode defaultUser.weight
      sampleCompositionResponse).boneMass = 6501171 / 2097152 := by
    simp only [getBodyCompositionData.decode, h11]
    exact tenthAsFloat_31
  refine ⟨_, _, hrun, h11, hbone, ?_⟩
  rw [hbone, h11]
  norm_num

/-- C10 amended: for every complete 24-byte composition response (a
`sendCommand` of the composition frame that returned `true`) with start marker
0x5A, declared length 0x16 and status byte 0, `getBodyCompositionData` returns
success with bodyFat, waterContent, boneMass, bmi, proteinRate and
subcutaneousFat equal to the `float` in which the code stores `raw / 10.0`
(`tenthAsFloat raw`: the `double` quotient rounded to single precision, within
0.001 of the exact quotient), for raw = BE16(5,6), BE16(7,8), byte 11,
BE16(15,16), BE16(18,19), BE16(20,21); and with bmr = BE16(12,13),
visceralFat = byte 14 and bodyAge = byte 17 exactly, where
BE16(i,j) = 256 * byte i + byte j.  The impedance and the profile are ones the
function accepts, as the frame is only sent for those. -/
theorem composition_decode (ch : Channel) (fuel : Nat) (w : World)
    (user : UserInfo) (impedance : Nat) (result : BodyComposition)
    (response : List Nat) (w1 : World)
    (hi : ¬ (impedance = 0 ∨ impedance ≥ 0xFFF0))
    (hh : ¬ (user.height < 90 ∨ user.height > 220))
    (hw : ¬ (user.weight < 10 ∨ user.weight > 200))
    (ha : ¬ (user.age < 6 ∨ user.age > 99))
    (hsend : sendCommand ch fuel w (getBodyCompositionData.command user impedance) 13
      (List.replicate 24 0) 24 = .ok (true, response, w1))
    (h0 : response.getD 0 0 = 0x5A) (h1 : response.getD 1 0 = 0x16)
    (h4 : response.getD 4 0 = 0x00) :
    response.length = 24 ∧
    (∃ res : BodyComposition,
      getBodyCompositionData ch fuel w user impedance result = .ok (true, res, w1) ∧
      res.bodyFat = tenthAsFloat (256 * response.getD 5 0 + response.getD 6 0) ∧
      res.waterContent = tenthAsFloat (256 * response.getD 7 0 + response.getD 8 0) ∧
      res.boneMass = tenthAsFloat (response.getD 11 0) ∧
      res.bmr = ((256 * response.getD 12 0 + response.getD 13 0 : Nat) : ℚ) ∧
      res.visceralFat = (response.getD 14 0 : ℚ) ∧
      res.bmi = tenthAsFloat (256 * response.getD 15 0 + response.getD 16 0) ∧
      res.bodyAge = (response.getD 17 0 : ℚ) ∧
      res.proteinRate = tenthAsFloat (256 * response.getD 18 0 + response.getD 19 0) ∧
      res.subcutaneousFat
        = tenthAsFloat (256 * response.getD 20 0 + response.getD 21 0)) ∧
    (∀ raw : Nat, raw < 65536 →
      tenthAsFloat raw = toFloat (toDouble ((raw : ℚ) / 10)) ∧
      |tenthAsFloat raw - (raw : ℚ) / 10| ≤ 1 / 1000) := by
  have hspec := sendCommand_spec ch fuel w _ 13 _ 24 true response w1 hsend
  have hb : ∀ i, i < 24 → response.getD i 0 < 256 := hspec.2.2 rfl
  refine ⟨by rw [hspec.2.1]; rfl,
    ⟨getBodyCompositionData.decode user.weight response,
      getBodyCompositionData_decodes ch fuel w user impedance result response w1
        hi hh hw ha hsend h0 h1 h4, ?_, ?_, rfl, ?_, ?_, ?_, ?_, ?_, ?_⟩,
    fun raw hraw => ⟨rfl, tenthAsFloat_near raw hraw⟩⟩
  · simp only [getBodyCompositionData.decode]
    rw [be16_eq _ _ (hb _ (by decide)) (hb _ (by decide))]
  · simp only [getBodyCompositionData.decode]
    rw [be16_eq _ _ (hb _ (by decide)) (hb _ (by decide))]
  · simp only [getBodyCompositionData.decode]
    rw [be16_eq _ _ (hb _ (by decide)) (hb _ (by decide))]
    exact toFloat_natCast _ (by have := hb 12 (by decide); have := hb 13 (by decide); omega)
  · simp only [getBodyCompositionData.decode]
    exact toFloat_natCast _ (by have := hb 14 (by decide); omega)
  · simp only [getBodyCompositionData.decode]
    rw [be16_eq _ _ (hb _ (by decide)) (hb _ (by decide))]
  · simp only [getBodyCompositionData.decode]
    exact toFloat_natCast _ (by have := hb 17 (by decide); omega)
  · simp only [getBodyCompositionData.decode]
    rw [be16_eq _ _ (hb _ (by decide)) (hb _ (by decide))]
  · simp only [getBodyCompositionData.decode]
    rw [be16_eq _ _ (hb _ (by decide)) (hb _ (by decide))]

/-- C10 amended, at the sample response, for the default profile and the
impedance 500: the call succeeds, boneMass is the `float` 6501171 / 2097152
and bmr is exactly 1500. -/
theorem composition_decode_witness :
    ∃ res : BodyComposition,
      getBodyCompositionData (Channel.replying sampleCompositionResponse) 30 World.initial
        defaultUser 500 zeroComposition
        = .ok (true, res,
            World.mk 25 24 72 [(getBodyCompositionData.command defaultUser 500).take 13]) ∧
      res.boneMass = 6501171 / 2097152 ∧
      res.bmr = 1500 := by
  obtain ⟨_, ⟨res, hrun, _, _, hbone, hbmr, _⟩, _⟩ :=
    composition_decode (Channel.replying sampleCompositionResponse) 30 World.initial
      defaultUser 500 zeroComposition sampleCompositionResponse _ (by decide)
      (by decide) (by decide) (by decide)
      (sendCommand_replying _ 13) (by decide) (by decide) (by decide)
  refine ⟨res, hrun, ?_, ?_⟩
  · rw [hbone]
    exact tenthAsFloat_31
  · rw [hbmr]
    norm_num [sampleCompositionResponse]

/-! ## Sensitivity of the checksum -/

theorem getD_set_eq_ite (data : List Nat) (i v j : Nat) (hi : i < data.length) :
    (data.set i v).getD j 0 = if j = i then v else data.getD j 0 := by
  rw [List.getD_eq_getElem?_getD, List.getD_eq_getElem?_getD, List.getElem?_set]
  by_cases h : i = j
  · subst h
    simp [hi]
  · have h2 : ¬ j = i := fun e => h e.symm
    simp [h, h2]

theorem getD_lt_of_forall (data : List Nat) (hb : ∀ b ∈ data, b < 256) (j : Nat) :
    data.getD j 0 < 256 := by
  rw [List.getD_eq_getElem?_getD]
  by_cases h : j < data.length
  · rw [List.getElem?_eq_getElem h]
    exact hb _ (List.getElem_mem _)
  · rw [List.getElem?_eq_none (by omega)]
    decide

/-- Two different running values stay different through the rest of the loop. -/
theorem calculateChecksum.loop_injective (data : List Nat) (length : Nat)
    (hb : ∀ b ∈ data, b < 256) :
    ∀ (fuel i acc1 acc2 : Nat), acc1 < 256 → acc2 < 256 → acc1 ≠ acc2 →
      calculateChecksum.loop data length fuel i acc1
        ≠ calculateChecksum.loop data length fuel i acc2 := by
  intro fuel
  induction fuel with
  | zero => intro i a1 a2 _ _ h; simpa [calculateChecksum.loop] using h
  | succ k ih =>
    intro i a1 a2 h1 h2 h
    simp only [calculateChecksum.loop]
    have hd := getD_lt_of_forall data hb i
    split
    · have e1 := Nat.xor_lt_two_pow (n := 8) h1 hd
      have e2 := Nat.xor_lt_two_pow (n := 8) h2 hd
      rw [Nat.mod_eq_of_lt e1, Nat.mod_eq_of_lt e2]
      apply ih _ _ _ e1 e2
      intro heq
      exact h (Nat.xor_left_injective heq)
    · exact h

/-- Replacing the byte at an index the loop still has to visit changes the
result of the loop. -/
theorem calculateChecksum.loop_set_ne (data : List Nat) (length i v : Nat)
    (hlen : length ≤ data.length) (hb : ∀ b ∈ data, b < 256)
    (hi2 : i + 2 < length) (hv : v < 256) (hne : v ≠ data.getD i 0) :
    ∀ (fuel j acc : Nat), j ≤ i → i < j + fuel → acc < 256 →
      calculateChecksum.loop (data.set i v) length fuel j acc
        ≠ calculateChecksum.loop data length fuel j acc := by
  have hil : i < data.length := by omega
  intro fuel
  induction fuel with
  | zero => intro j acc h1 h2; omega
  | succ k ih =>
    intro j acc hji hfuel hacc
    simp only [calculateChecksum.loop]
    have hc : (j : Int) < (length : Int) - 2 := by omega
    rw [if_pos hc, if_pos hc, getD_set_eq_ite data i v j hil]
    by_cases hj : j = i
    · subst hj
      rw [if_pos rfl]
      have hd := getD_lt_of_forall data hb j
      have e1 := Nat.xor_lt_two_pow (n := 8) hacc hv
      have e2 := Nat.xor_lt_two_pow (n := 8) hacc hd
      rw [Nat.mod_eq_of_lt e1, Nat.mod_eq_of_lt e2,
        calculateChecksum.loop_congr data (data.set j v) length k (j + 1) (acc ^^^ v)
          (fun m hm _ => by rw [getD_set_eq_ite data j v m hil, if_neg (by omega)])]
      apply calculateChecksum.loop_injective data length hb _ _ _ _ e1 e2
      intro heq
      exact hne (Nat.xor_right_injective heq)
    · rw [if_neg hj]
      exact ih (j + 1) _ (by omega) (by omega) (Nat.mod_lt _ (by decide))

/-- C20: the checksum is deterministic and sensitive to every payload byte.
For every frame `data` of bytes, every length `n ≤` its size and every index
`i` with `1 ≤ i < n - 2`, replacing the byte at `i` by any different byte value
changes the result of `calculateChecksum`; and `calculateChecksum` is a
function, so two calls on the same bytes return the same value. -/
theorem calculateChecksum_sensitive (data : List Nat) (n i v : Nat)
    (hn : n ≤ data.length) (hb : ∀ b ∈ data, b < 256)
    (hi1 : 1 ≤ i) (hi2 : i + 2 < n) (hv : v < 256) (hne : v ≠ data.getD i 0) :
    calculateChecksum (data.set i v) n ≠ calculateChecksum data n ∧
    (∀ data2 : List Nat, data2 = data → calculateChecksum data2 n = calculateChecksum data n) := by
  refine ⟨?_, fun data2 h => by rw [h]⟩
  unfold calculateChecksum
  exact calculateChecksum.loop_set_ne data n i v hn hb hi2 hv hne n 1 0 hi1 (by omega)
    (by decide)

/-- C20 at the frame of `enterImpedanceMode`: replacing the payload byte 0x03
at index 4 by 0x04 changes the checksum. -/
theorem calculateChecksum_sensitive_witness :
    calculateChecksum (enterImpedanceMode.command.set 4 0x04) 7
      ≠ calculateChecksum enterImpedanceMode.command 7 ∧
    (∀ data2 : List Nat, data2 = enterImpedanceMode.command →
      calculateChecksum data2 7 = calculateChecksum enterImpedanceMode.command 7) :=
  calculateChecksum_sensitive enterImpedanceMode.command 7 4 0x04
    (by decide) (by decide) (by decide) (by decide) (by decide) (by decide)

/-! ## Outcomes of `getBodyCompositionData` -/

/-- Every returning call of `getBodyCompositionData` either failed and left the
record as it was, or passed all checks, received a complete response with the
preamble 0x5A, 0x16 and status 0, and returned the decoded record. -/
theorem getBodyCompositionData_cases (ch : Channel) (fuel : Nat) (w : World) (user : UserInfo)
    (impedance : Nat) (result : BodyComposition) (ok : Bool) (res : BodyComposition)
    (w1 : World)
    (h : getBodyCompositionData ch fuel w user impedance result = .ok (ok, res, w1)) :
    (ok = false ∧ res = result) ∨
    (ok = true ∧
      ¬ (impedance = 0 ∨ impedance ≥ 0xFFF0) ∧
      ¬ (user.height < 90 ∨ user.height > 220) ∧
      ¬ (user.weight < 10 ∨ user.weight > 200) ∧
      ¬ (user.age < 6 ∨ user.age > 99) ∧
      ∃ response,
        sendCommand ch fuel w (getBodyCompositionData.command user impedance) 13
          (List.replicate 24 0) 24 = .ok (true, response, w1) ∧
        response.getD 0 0 = 0x5A ∧ response.getD 1 0 = 0x16 ∧ response.getD 4 0 = 0x00 ∧
        res = getBodyCompositionData.decode user.weight response) := by
  have hlen : (getBodyCompositionData.command user impedance).length = 13 := rfl
  have hrep : (List.replicate 24 0 : List Nat).length = 24 := rfl
  unfold getBodyCompositionData at h
  by_cases hi : impedance = 0 ∨ impedance ≥ 0xFFF0
  · rw [if_pos hi] at h
    simp only [Except.ok.injEq, Prod.mk.injEq] at h
    exact Or.inl ⟨h.1.symm, h.2.1.symm⟩
  rw [if_neg hi] at h
  by_cases hh : user.height < 90 ∨ user.height > 220
  · rw [if_pos hh] at h
    simp only [Except.ok.injEq, Prod.mk.injEq] at h
    exact Or.inl ⟨h.1.symm, h.2.1.symm⟩
  rw [if_neg hh] at h
  by_cases hw : user.weight < 10 ∨ user.weight > 200
  · rw [if_pos hw] at h
    simp only [Except.ok.injEq, Prod.mk.injEq] at h
    exact Or.inl ⟨h.1.symm, h.2.1.symm⟩
  rw [if_neg hw] at h
  by_cases ha : user.age < 6 ∨ user.age > 99
  · rw [if_pos ha] at h
    simp only [Except.ok.injEq, Prod.mk.injEq] at h
    exact Or.inl ⟨h.1.symm, h.2.1.symm⟩
  rw [if_neg ha] at h
  simp only [hlen, hrep] at h
  cases hsc : sendCommand ch fuel w (getBodyCompositionData.command user impedance) 13
      (List.replicate 24 0) 24 with
  | error e => rw [hsc] at h; simp at h
  | ok v =>
    obtain ⟨b, resp, w2⟩ := v
    rw [hsc] at h
    cases b
    · simp only [Except.ok.injEq, Prod.mk.injEq] at h
      exact Or.inl ⟨h.1.symm, h.2.1.symm⟩
    · dsimp only at h
      by_cases hp : resp.getD 0 0 = 0x5A ∧ resp.getD 1 0 = 0x16
      · rw [if_pos hp] at h
        by_cases he : resp.getD 4 0 ≠ 0x00
        · rw [if_pos he] at h
          simp only [Except.ok.injEq, Prod.mk.injEq] at h
          exact Or.inl ⟨h.1.symm, h.2.1.symm⟩
        · rw [if_neg he] at h
          simp only [Except.ok.injEq, Prod.mk.injEq] at h
          refine Or.inr ⟨h.1.symm, hi, hh, hw, ha, resp, ?_, hp.1, hp.2, not_not.mp he,
            h.2.1.symm⟩
          rw [h.2.2]
      · rw [if_neg hp] at h
        simp only [Except.ok.injEq, Prod.mk.injEq] at h
        exact Or.inl ⟨h.1.symm, h.2.1.symm⟩

/-- Past the five checks, a failed transaction, a wrong preamble or a non-zero
status make `getBodyCompositionData` return `false` with the record as it
was. -/
theorem getBodyCompositionData_rejects (ch : Channel) (fuel : Nat) (w : World)
    (user : UserInfo) (impedance : Nat) (result : BodyComposition)
    (ok : Bool) (response : List Nat) (w1 : World)
    (hi : ¬ (impedance = 0 ∨ impedance ≥ 0xFFF0))
    (hh : ¬ (user.height < 90 ∨ user.height > 220))
    (hw : ¬ (user.weight < 10 ∨ user.weight > 200))
    (ha : ¬ (user.age < 6 ∨ user.age > 99))
    (hsend : sendCommand ch fuel w (getBodyCompositionData.command user impedance) 13
      (List.replicate 24 0) 24 = .ok (ok, response, w1))
    (hbad : ok = false ∨ response.getD 0 0 ≠ 0x5A ∨ response.getD 1 0 ≠ 0x16 ∨
      response.getD 4 0 ≠ 0x00) :
    getBodyCompositionData ch fuel w user impedance result = .ok (false, result, w1) := by
  have hlen : (getBodyCompositionData.command user impedance).length = 13 := rfl
  have hrep : (List.replicate 24 0 : List Nat).length = 24 := rfl
  unfold getBodyCompositionData
  rw [if_neg hi, if_neg hh, if_neg hw, if_neg ha]
  simp only [hlen, hrep, hsend]
  cases ok
  · rfl
  · dsimp only
    by_cases hp : response.getD 0 0 = 0x5A ∧ response.getD 1 0 = 0x16
    · rw [if_pos hp]
      have he : response.getD 4 0 ≠ 0x00 := by
        rcases hbad with h | h | h | h
        · cases h
        · exact absurd hp.1 h
        · exact absurd hp.2 h
        · exact h
      rw [if_pos he]
    · rw [if_neg hp]

/-- An impedance or a profile that fails one of the five checks makes
`getBodyCompositionData` return `false` at once, with record and environment
as they were. -/
theorem getBodyCompositionData_invalid (ch : Channel) (fuel : Nat) (w : World)
    (user : UserInfo) (impedance : Nat) (result : BodyComposition)
    (h : (impedance = 0 ∨ impedance ≥ 0xFFF0) ∨ (user.height < 90 ∨ user.height > 220) ∨
      (user.weight < 10 ∨ user.weight > 200) ∨ (user.age < 6 ∨ user.age > 99)) :
    getBodyCompositionData ch fuel w user impedance result = .ok (false, result, w) := by
  unfold getBodyCompositionData
  by_cases hi : impedance = 0 ∨ impedance ≥ 0xFFF0
  · rw [if_pos hi]
  rw [if_neg hi]
  by_cases hh : user.height < 90 ∨ user.height > 220
  · rw [if_pos hh]
  rw [if_neg hh]
  by_cases hw : user.weight < 10 ∨ user.weight > 200
  · rw [if_pos hw]
  rw [if_neg hw]
  by_cases ha : user.age < 6 ∨ user.age > 99
  · rw [if_pos ha]
  exact absurd h (by tauto)

/-! ## Muscle mass -/

/-- C12: `getBodyCompositionData` never exposes a partially populated record.
Every returning call either returns `false` with the caller's record
unchanged, or returns `true` with the record decoded from the response, all
ten fields assigned: the returned record does not depend on what the caller's
record held.  The failure paths are: an invalid impedance or profile (nothing
sent), a failed transaction, a wrong start marker or declared length, a
non-zero status byte. -/
theorem no_partial_composition (ch : Channel) (fuel : Nat) (w : World) (user : UserInfo)
    (impedance : Nat) (result : BodyComposition) :
    (∀ ok res w1, getBodyCompositionData ch fuel w user impedance result = .ok (ok, res, w1) →
      (ok = false ∧ res = result) ∨
      (ok = true ∧ ∃ response,
        res = getBodyCompositionData.decode user.weight response ∧
        ∀ result2 : BodyComposition,
          getBodyCompositionData ch fuel w user impedance result2 = .ok (true, res, w1))) ∧
    (((impedance = 0 ∨ impedance ≥ 0xFFF0) ∨ (user.height < 90 ∨ user.height > 220) ∨
        (user.weight < 10 ∨ user.weight > 200) ∨ (user.age < 6 ∨ user.age > 99)) →
      getBodyCompositionData ch fuel w user impedance result = .ok (false, result, w)) ∧
    (¬ ((impedance = 0 ∨ impedance ≥ 0xFFF0) ∨ (user.height < 90 ∨ user.height > 220) ∨
        (user.weight < 10 ∨ user.weight > 200) ∨ (user.age < 6 ∨ user.age > 99)) →
      ∀ ok response w1,
        sendCommand ch fuel w (getBodyCompositionData.command user impedance) 13
          (List.replicate 24 0) 24 = .ok (ok, response, w1) →
        ((ok = false ∨ response.getD 0 0 ≠ 0x5A ∨ response.getD 1 0 ≠ 0x16 ∨
            response.getD 4 0 ≠ 0x00) →
          getBodyCompositionData ch fuel w user impedance result = .ok (false, result, w1)) ∧
        (ok = true → response.getD 0 0 = 0x5A → response.getD 1 0 = 0x16 →
            response.getD 4 0 = 0x00 →
          getBodyCompositionData ch fuel w user impedance result
            = .ok (true, getBodyCompositionData.decode user.weight response, w1))) := by
  refine ⟨?_, getBodyCompositionData_invalid ch fuel w user impedance result, ?_⟩
  · intro ok res w1 h
    rcases getBodyCompositionData_cases ch fuel w user impedance result ok res w1 h with
      hf | ⟨hok, hi, hh, hw, ha, response, hsend, h0, h1, h4, hres⟩
    · exact Or.inl hf
    · refine Or.inr ⟨hok, response, hres, fun result2 => ?_⟩
      rw [hres]
      exact getBodyCompositionData_decodes ch fuel w user impedance result2 response w1
        hi hh hw ha hsend h0 h1 h4
  · intro hacc ok response w1 hsend
    have hi : ¬ (impedance = 0 ∨ impedance ≥ 0xFFF0) := fun h => hacc (by tauto)
    have hh : ¬ (user.height < 90 ∨ user.height > 220) := fun h => hacc (by tauto)
    have hw : ¬ (user.weight < 10 ∨ user.weight > 200) := fun h => hacc (by tauto)
    have ha : ¬ (user.age < 6 ∨ user.age > 99) := fun h => hacc (by tauto)
    refine ⟨fun hbad => getBodyCompositionData_rejects ch fuel w user impedance result ok
      response w1 hi hh hw ha hsend hbad, ?_⟩
    intro hok h0 h1 h4
    subst hok
    exact getBodyCompositionData_decodes ch fuel w user impedance result response w1
      hi hh hw ha hsend h0 h1 h4

/-- C12 at two calls with the default profile on a port that answers with the
sample response: the impedance 0 is refused with the record unchanged, and the
impedance 500 returns the decoded record whatever the caller's record held. -/
theorem no_partial_composition_witness :
    getBodyCompositionData (Channel.replying sampleCompositionResponse) 30 World.initial
        defaultUser 0 zeroComposition = .ok (false, zeroComposition, World.initial) ∧
    ∀ result : BodyComposition,
      getBodyCompositionData (Channel.replying sampleCompositionResponse) 30 World.initial
        defaultUser 500 result
        = .ok (true, getBodyCompositionData.decode defaultUser.weight
            sampleCompositionResponse,
            World.mk 25 24 72 [(getBodyCompositionData.command defaultUser 500).take 13]) :=
  ⟨(no_partial_composition (Channel.replying sampleCompositionResponse) 30 World.initial
      defaultUser 0 zeroComposition).2.1 (Or.inl (Or.inl rfl)),
   fun result =>
    ((no_partial_composition (Channel.replying sampleCompositionResponse) 30 World.initial
      defaultUser 500 result).2.2 (by decide) true sampleCompositionResponse _
      (sendCommand_replying _ 13)).2 rfl (by decide) (by decide) (by decide)⟩

/-! ## Level decode -/

theorem getBodyCompositionLevel.fat_known (b : Nat) :
    getBodyCompositionLevel.fat b ≠ .unknown ↔ b < 5 := by
  unfold getBodyCompositionLevel.fat
  split_ifs <;> simp <;> omega

theorem getBodyCompositionLevel.threeStep_known (b : Nat) :
    getBodyCompositionLevel.threeStep b ≠ .unknown ↔ b < 3 := by
  unfold getBodyCompositionLevel.threeStep
  split_ifs <;> simp <;> omega

theorem getBodyCompositionLevel.bmr_known (b : Nat) :
    getBodyCompositionLevel.bmr b ≠ .unknown ↔ b < 2 := by
  unfold getBodyCompositionLevel.bmr
  split_ifs <;> simp <;> omega

theorem getBodyCompositionLevel.visceral_known (b : Nat) :
    getBodyCompositionLevel.visceral b ≠ .unknown ↔ b < 3 := by
  unfold getBodyCompositionLevel.visceral
  split_ifs <;> simp <;> omega

theorem getBodyCompositionLevel.bmi_known (b : Nat) :
    getBodyCompositionLevel.bmi b ≠ .unknown ↔ b < 4 := by
  unfold getBodyCompositionLevel.bmi
  split_ifs <;> simp <;> omega

theorem getBodyCompositionLevel.subcut_known (b : Nat) :
    getBodyCompositionLevel.subcut b ≠ .unknown ↔ b < 3 := by
  unfold getBodyCompositionLevel.subcut
  split_ifs <;> simp <;> omega

/-- A complete level response with the preamble 0x5A, 0x0E and status 0 is
decoded metric by metric. -/
theorem getBodyCompositionLevel_decodes (ch : Channel) (fuel : Nat) (w : World)
    (response : List Nat) (w1 : World)
    (hsend : sendCommand ch fuel w getBodyCompositionLevel.command 6
      (List.replicate 16 0) 16 = .ok (true, response, w1))
    (h0 : response.getD 0 0 = 0x5A) (h1 : response.getD 1 0 = 0x0E)
    (h4 : response.getD 4 0 = 0x00) :
    getBodyCompositionLevel ch fuel w = .ok (true, some
      { fat := getBodyCompositionLevel.fat (response.getD 5 0)
        water := getBodyCompositionLevel.threeStep (response.getD 6 0)
        muscle := getBodyCompositionLevel.threeStep (response.getD 7 0)
        bone := getBodyCompositionLevel.threeStep (response.getD 8 0)
        bmr := getBodyCompositionLevel.bmr (response.getD 9 0)
        visceral := getBodyCompositionLevel.visceral (response.getD 10 0)
        bmi := getBodyCompositionLevel.bmi (response.getD 11 0)
        protein := getBodyCompositionLevel.threeStep (response.getD 12 0)
        subcut := getBodyCompositionLevel.subcut (response.getD 13 0) }, w1) := by
  have hlen : getBodyCompositionLevel.command.length = 6 := rfl
  have hrep : (List.replicate 16 0 : List Nat).length = 16 := rfl
  unfold getBodyCompositionLevel
  simp only [hlen, hrep, hsend]
  rw [if_pos ⟨h0, h1⟩, if_neg (not_not.mpr h4)]

theorem sendCommand_replying_level_nil :
    sendCommand (Channel.replying sampleLevelResponse) 30 World.initial [] 0
      (List.replicate 16 0) 16
      = .ok (true, sampleLevelResponse, World.mk 17 16 48 [[]]) := by
  decide

/-- On the port `Channel.replying sampleLevelResponse`, started in the initial
environment, `sendCommand` for 16 bytes writes the frame and returns the
sample level response. -/
theorem sendCommand_replying_level (command : List Nat) (cmdLen : Nat) :
    sendCommand (Channel.replying sampleLevelResponse) 30 World.initial command cmdLen
      (List.replicate 16 0) 16
      = .ok (true, sampleLevelResponse, World.mk 17 16 48 [command.take cmdLen]) := by
  rw [sendCommand_frame_irrelevant, sendCommand_replying_level_nil]
  rfl

/-- C13: for every complete 16-byte level response (a `sendCommand` of the level
frame that returned `true`) with start marker 0x5A, declared length 0x0E and
status byte 0, `getBodyCompositionLevel` succeeds and decodes the nine metric
bytes at the offsets 5..13 independently.  A metric maps to a known level iff
its byte is below its table size (5, 3, 3, 3, 2, 3, 4, 3, 3) and to `unknown`
otherwise; and for any other such response the call succeeds as well, with the
same level for every metric whose byte is the same: changing one metric's byte
changes neither the other metrics nor the success. -/
theorem level_decode (ch : Channel) (fuel : Nat) (w : World) (response : List Nat)
    (w1 : World)
    (hsend : sendCommand ch fuel w getBodyCompositionLevel.command 6
      (List.replicate 16 0) 16 = .ok (true, response, w1))
    (h0 : response.getD 0 0 = 0x5A) (h1 : response.getD 1 0 = 0x0E)
    (h4 : response.getD 4 0 = 0x00) :
    ∃ report : LevelReport,
      getBodyCompositionLevel ch fuel w = .ok (true, some report, w1) ∧
      (report.fat ≠ .unknown ↔ response.getD 5 0 < 5) ∧
      (report.water ≠ .unknown ↔ response.getD 6 0 < 3) ∧
      (report.muscle ≠ .unknown ↔ response.getD 7 0 < 3) ∧
      (report.bone ≠ .unknown ↔ response.getD 8 0 < 3) ∧
      (report.bmr ≠ .unknown ↔ response.getD 9 0 < 2) ∧
      (report.visceral ≠ .unknown ↔ response.getD 10 0 < 3) ∧
      (report.bmi ≠ .unknown ↔ response.getD 11 0 < 4) ∧
      (report.protein ≠ .unknown ↔ response.getD 12 0 < 3) ∧
      (report.subcut ≠ .unknown ↔ response.getD 13 0 < 3) ∧
      ∀ (ch2 : Channel) (fuel2 : Nat) (w2 : World) (response2 : List Nat) (w3 : World),
        sendCommand ch2 fuel2 w2 getBodyCompositionLevel.command 6
          (List.replicate 16 0) 16 = .ok (true, response2, w3) →
        response2.getD 0 0 = 0x5A → response2.getD 1 0 = 0x0E → response2.getD 4 0 = 0x00 →
        ∃ report2 : LevelReport,
          getBodyCompositionLevel ch2 fuel2 w2 = .ok (true, some report2, w3) ∧
          (response2.getD 5 0 = response.getD 5 0 → report2.fat = report.fat) ∧
          (response2.getD 6 0 = response.getD 6 0 → report2.water = report.water) ∧
          (response2.getD 7 0 = response.getD 7 0 → report2.muscle = report.muscle) ∧
          (response2.getD 8 0 = response.getD 8 0 → report2.bone = report.bone) ∧
          (response2.getD 9 0 = response.getD 9 0 → report2.bmr = report.bmr) ∧
          (response2.getD 10 0 = response.getD 10 0 → report2.visceral = report.visceral) ∧
          (response2.getD 11 0 = response.getD 11 0 → report2.bmi = report.bmi) ∧
          (response2.getD 12 0 = response.getD 12 0 → report2.protein = report.protein) ∧
          (response2.getD 13 0 = response.getD 13 0 → report2.subcut = report.subcut) := by
  refine ⟨_, getBodyCompositionLevel_decodes ch fuel w response w1 hsend h0 h1 h4,
    getBodyCompositionLevel.fat_known _, getBodyCompositionLevel.threeStep_known _,
    getBodyCompositionLevel.threeStep_known _, getBodyCompositionLevel.threeStep_known _,
    getBodyCompositionLevel.bmr_known _, getBodyCompositionLevel.visceral_known _,
    getBodyCompositionLevel.bmi_known _, getBodyCompositionLevel.threeStep_known _,
    getBodyCompositionLevel.subcut_known _, ?_⟩
  intro ch2 fuel2 w2 response2 w3 hsend2 g0 g1 g4
  refine ⟨_, getBodyCompositionLevel_decodes ch2 fuel2 w2 response2 w3 hsend2 g0 g1 g4,
    ?_, ?_, ?_, ?_, ?_, ?_, ?_, ?_, ?_⟩ <;>
  · intro h
    simp only [h]

/-- C13 at the sample level response, whose BMI byte is 0xFF: the call
succeeds, the BMI level is `unknown` and the other eight levels are known. -/
theorem level_decode_witness :
    ∃ report : LevelReport,
      getBodyCompositionLevel (Channel.replying sampleLevelResponse) 30 World.initial
        = .ok (true, some report, World.mk 17 16 48 [getBodyCompositionLevel.command]) ∧
      report.bmi = .unknown ∧
      report.fat ≠ .unknown ∧ report.water ≠ .unknown ∧ report.muscle ≠ .unknown ∧
      report.bone ≠ .unknown ∧ report.bmr ≠ .unknown ∧ report.visceral ≠ .unknown ∧
      report.protein ≠ .unknown ∧ report.subcut ≠ .unknown := by
  obtain ⟨report, hrun, hfat, hwater, hmuscle, hbone, hbmr, hvisceral, hbmi, hprotein,
      hsubcut, _⟩ :=
    level_decode (Channel.replying sampleLevelResponse) 30 World.initial sampleLevelResponse
      _ (sendCommand_replying_level _ 6) (by decide) (by decide) (by decide)
  refine ⟨report, hrun, ?_, hfat.2 (by decide), hwater.2 (by decide), hmuscle.2 (by decide),
    hbone.2 (by decide), hbmr.2 (by decide), hvisceral.2 (by decide),
    hprotein.2 (by decide), hsubcut.2 (by decide)⟩
  by_contra hne
  exact absurd (hbmi.1 hne) (by decide)

/-! ## Outcomes of the three acknowledged commands -/

/-- The function `enterImpedanceMode` returns what `sendCommand` returns on its
frame, combined with the test of bytes 0 and 4 of the response. -/
theorem enterImpedanceMode_eq (ch : Channel) (fuel : Nat) (w : World) :
    enterImpedanceMode ch fuel w
      = (sendCommand ch fuel w enterImpedanceMode.command 7 (List.replicate 7 0) 7).map
          (fun x => (x.1 && decide (x.2.1.getD 0 0 = 0x5A ∧ x.2.1.getD 4 0 = 0x03), x.2.2)) := by
  have hlen : enterImpedanceMode.command.length = 7 := rfl
  have hrep : (List.replicate 7 0 : List Nat).length = 7 := rfl
  unfold enterImpedanceMode
  simp only [hlen, hrep]
  rcases sendCommand ch fuel w enterImpedanceMode.command 7 (List.replicate 7 0) 7 with
    e | ⟨b, resp, w2⟩
  · rfl
  · cases b
    · rfl
    · dsimp only [Except.map]
      by_cases hp : resp.getD 0 0 = 0x5A ∧ resp.getD 4 0 = 0x03
      · rw [if_pos hp, decide_eq_true hp]; rfl
      · rw [if_neg hp, decide_eq_false hp]; split <;> rfl

/-- The function `setHandImpedanceMode` returns what `sendCommand` returns on
its frame, combined with the test of bytes 0 and 4 of the response. -/
theorem setHandImpedanceMode_eq (ch : Channel) (fuel : Nat) (w : World) (enable : Bool) :
    setHandImpedanceMode ch fuel w enable
      = (sendCommand ch fuel w (setHandImpedanceMode.command enable) 12
          (List.replicate 12 0) 12).map
          (fun x => (x.1 && decide (x.2.1.getD 0 0 = 0x5A ∧ x.2.1.getD 4 0 = 0x00), x.2.2)) := by
  have hlen : (setHandImpedanceMode.command enable).length = 12 := by cases enable <;> rfl
  have hrep : (List.replicate 12 0 : List Nat).length = 12 := rfl
  unfold setHandImpedanceMode
  simp only [hlen, hrep]
  rcases sendCommand ch fuel w (setHandImpedanceMode.command enable) 12
      (List.replicate 12 0) 12 with e | ⟨b, resp, w2⟩
  · rfl
  · cases b
    · rfl
    · dsimp only [Except.map]
      by_cases hp : resp.getD 0 0 = 0x5A ∧ resp.getD 4 0 = 0x00
      · rw [if_pos hp, decide_eq_true hp]; rfl
      · rw [if_neg hp, decide_eq_false hp]; rfl

/-- The function `readImpedanceMode` returns what `sendCommand` returns on its
frame, combined with the test of bytes 0 and 4 and the mode byte 9 of the
response. -/
theorem readImpedanceMode_eq (ch : Channel) (fuel : Nat) (w : World) :
    readImpedanceMode ch fuel w
      = (sendCommand ch fuel w readImpedanceMode.command 12 (List.replicate 12 0) 12).map
          (fun x => (x.1 && decide (x.2.1.getD 0 0 = 0x5A ∧ x.2.1.getD 4 0 = 0x00)
            && decide (x.2.1.getD 9 0 ≠ 0), x.2.2)) := by
  have hlen : readImpedanceMode.command.length = 12 := rfl
  have hrep : (List.replicate 12 0 : List Nat).length = 12 := rfl
  unfold readImpedanceMode
  simp only [hlen, hrep]
  rcases sendCommand ch fuel w readImpedanceMode.command 12 (List.replicate 12 0) 12 with
    e | ⟨b, resp, w2⟩
  · rfl
  · cases b
    · rfl
    · dsimp only [Except.map]
      by_cases hp : resp.getD 0 0 = 0x5A ∧ resp.getD 4 0 = 0x00
      · rw [if_pos hp, decide_eq_true hp]; rfl
      · rw [if_neg hp, decide_eq_false hp]; rfl

/-! ## Enter impedance mode -/

/-- C19: `enterImpedanceMode` sends exactly the 7-byte frame
A5 05 26 10 03 30 AA and returns success if and only if a complete 7-byte
response was received (`sendCommand` returned `true`) with byte 0 = 0x5A and
byte 4 = 0x03. -/
theorem enterImpedanceMode_contract (ch : Channel) (fuel : Nat) (w : World) (b : Bool)
    (w1 : World) (h : enterImpedanceMode ch fuel w = .ok (b, w1)) :
    w1.sent = w.sent ++ [[0xA5, 0x05, 0x26, 0x10, 0x03, 0x30, 0xAA]] ∧
    ∃ (ok : Bool) (response : List Nat),
      sendCommand ch fuel w [0xA5, 0x05, 0x26, 0x10, 0x03, 0x30, 0xAA] 7
        (List.replicate 7 0) 7 = .ok (ok, response, w1) ∧
      response.length = 7 ∧
      (b = true ↔ (ok = true ∧ response.getD 0 0 = 0x5A ∧ response.getD 4 0 = 0x03)) := by
  rw [enterImpedanceMode_eq] at h
  cases hsc : sendCommand ch fuel w enterImpedanceMode.command 7 (List.replicate 7 0) 7 with
  | error e => rw [hsc] at h; simp [Except.map] at h
  | ok v =>
    obtain ⟨ok, resp, w2⟩ := v
    rw [hsc] at h
    simp only [Except.map, Except.ok.injEq, Prod.mk.injEq] at h
    obtain ⟨hb, hw⟩ := h
    subst hw
    have hspec := sendCommand_spec ch fuel w _ 7 _ 7 ok resp w2 hsc
    refine ⟨hspec.1, ok, resp, hsc, hspec.2.1, ?_⟩
    rw [← hb, Bool.and_eq_true, decide_eq_true_iff]

/-- C19 at the two responses of the scenario: 5A 05 26 10 03 30 AA yields
success, the error variant 5A 05 26 10 FF 2B AA yields failure, and in both
runs the frame written is A5 05 26 10 03 30 AA. -/
theorem enterImpedanceMode_contract_witness :
    (enterImpedanceMode (Channel.replying enterAckResponse) 30 World.initial
        = .ok (true, World.mk 8 7 21 [[0xA5, 0x05, 0x26, 0x10, 0x03, 0x30, 0xAA]]) ∧
      enterImpedanceMode (Channel.replying enterErrorResponse) 30 World.initial
        = .ok (false, World.mk 8 7 21 [[0xA5, 0x05, 0x26, 0x10, 0x03, 0x30, 0xAA]])) ∧
    ∃ (ok : Bool) (response : List Nat),
      sendCommand (Channel.replying enterErrorResponse) 30 World.initial
        [0xA5, 0x05, 0x26, 0x10, 0x03, 0x30, 0xAA] 7 (List.replicate 7 0) 7
        = .ok (ok, response, World.mk 8 7 21 [[0xA5, 0x05, 0x26, 0x10, 0x03, 0x30, 0xAA]]) ∧
      response.length = 7 ∧
      (false = true ↔ (ok = true ∧ response.getD 0 0 = 0x5A ∧ response.getD 4 0 = 0x03)) :=
  ⟨⟨by decide, by decide⟩,
   (enterImpedanceMode_contract (Channel.replying enterErrorResponse) 30 World.initial false
      (World.mk 8 7 21 [[0xA5, 0x05, 0x26, 0x10, 0x03, 0x30, 0xAA]]) (by decide)).2⟩

/-! ## Validation of the response preamble -/

/-- C17, the code at responses with a wrong declared-length byte: the three
operations that test bytes 0 and 4 only accept them.  `enterImpedanceMode`
returns `true` on 5A 99 26 10 03 30 AA (expected length byte 0x05), and
`setHandImpedanceMode` and `readImpedanceMode` return `true` on a 12-byte
response with the length byte 0x99 (expected 0x0A). -/
theorem declared_length_not_validated :
    enterWrongLengthResponse.getD 1 0 ≠ 0x05 ∧
    enterImpedanceMode (Channel.replying enterWrongLengthResponse) 30 World.initial
      = .ok (true, World.mk 8 7 21 [enterImpedanceMode.command]) ∧
    (modeResponse 0x5A 0x99 1).getD 1 0 ≠ 0x0A ∧
    setHandImpedanceMode (Channel.replying (modeResponse 0x5A 0x99 1)) 30 World.initial true
      = .ok (true, World.mk 13 12 36 [setHandImpedanceMode.command true]) ∧
    readImpedanceMode (Channel.replying (modeResponse 0x5A 0x99 1)) 30 World.initial
      = .ok (true, World.mk 13 12 36 [readImpedanceMode.command]) := by
  refine ⟨by decide, by decide, by decide, by decide, by decide⟩

/-! ## More lemmas on the transaction engine -/

theorem elapsed_eq (s e : Nat) (he : e < 2 ^ 32) :
    ((s + e) % 2 ^ 32 + 2 ^ 32 - s % 2 ^ 32) % 2 ^ 32 = e := by
  norm_num at he ⊢
  omega

/-- What the receive loop does to the buffer: it fills the cells
`bytesRead, ..., n - 1` with the bytes read, in order, and leaves every other
cell as it was. -/
theorem sendCommand.receive_trace (ch : Channel) (startTime expectedLen : Nat) :
    ∀ (fuel : Nat) (w : World) (bytesRead : Nat) (response : List Nat)
      (n : Nat) (r : List Nat) (w1 : World),
      sendCommand.receive ch startTime expectedLen fuel w bytesRead response = .ok (n, r, w1) →
      bytesRead ≤ expectedLen →
      bytesRead ≤ n ∧ n ≤ expectedLen ∧ w1.readCalls = w.readCalls + (n - bytesRead) ∧
        r.length = response.length ∧
        (∀ i, i < bytesRead ∨ n ≤ i → r.getD i 0 = response.getD i 0) ∧
        (∀ i, bytesRead ≤ i → i < n →
          r.getD i 0 = ch.read (w.readCalls + (i - bytesRead)) % 256) := by
  intro fuel
  induction fuel with
  | zero => intro w b resp n r w1 h; simp [sendCommand.receive] at h
  | succ k ih =>
    intro w b resp n r w1 h hb
    simp only [sendCommand.receive] at h
    split at h
    · rename_i hcond
      split at h
      · split at h
        · rename_i hlt
          obtain ⟨h1, h2, h3, h4, h5, h6⟩ := ih _ _ _ _ _ _ h (by omega)
          simp only [delay] at h3
          refine ⟨by omega, h2, by omega, by rw [h4, List.length_set], ?_, ?_⟩
          · intro i hi
            rw [h5 i (by omega), getD_set_eq_ite resp b _ i hlt, if_neg (by omega)]
          · intro i hi1 hi2
            by_cases hib : i = b
            · subst hib
              rw [h5 i (Or.inl (by omega)), getD_set_eq_ite resp i _ i hlt, if_pos rfl,
                Nat.sub_self, Nat.add_zero]
            · rw [h6 i (by omega) hi2]
              simp only [delay]
              congr 2
              omega
        · simp at h
      · have := ih _ _ _ _ _ _ h hb
        simpa [delay] using this
    · simp only [Except.ok.injEq, Prod.mk.injEq] at h
      obtain ⟨h1, h2, h3⟩ := h
      subst h1 h2 h3
      exact ⟨Nat.le_refl _, hb, by simp, rfl, fun _ _ => rfl, fun i h1 h2 => by omega⟩

theorem sendCommand.drain_no_outOfBounds (ch : Channel) :
    ∀ (fuel : Nat) (w : World), sendCommand.drain ch fuel w ≠ .error .outOfBounds := by
  intro fuel
  induction fuel with
  | zero => intro w; simp [sendCommand.drain]
  | succ k ih =>
    intro w
    simp only [sendCommand.drain]
    split
    · exact ih _
    · simp

theorem sendCommand.receive_no_outOfBounds (ch : Channel) (startTime expectedLen : Nat) :
    ∀ (fuel : Nat) (w : World) (bytesRead : Nat) (response : List Nat),
      expectedLen ≤ response.length →
      sendCommand.receive ch startTime expectedLen fuel w bytesRead response
        ≠ .error .outOfBounds := by
  intro fuel
  induction fuel with
  | zero => intro w b resp _; simp [sendCommand.receive]
  | succ k ih =>
    intro w b resp hlen
    simp only [sendCommand.receive]
    split
    · rename_i hcond
      split
      · split
        · exact ih _ _ _ (by rw [List.length_set]; exact hlen)
        · omega
      · exact ih _ _ _ hlen
    · simp

/-! ## Result of a transaction -/

/-- C14: `sendCommand` returns `true` if and only if the number `n` of bytes
accumulated when the wait ended (the number of `BHM.read()` calls after the
discard) equals `expectedLen`.  It never stores a byte at an index
`≥ expectedLen`: `n ≤ expectedLen`, every cell from index `n` on is as the
caller left it, and with a buffer of at least `expectedLen` cells no store
falls outside it.  The cells below `n`, on success the first `expectedLen`
cells, hold the bytes the channel delivered after the send, in arrival
order. -/
theorem sendCommand_result (ch : Channel) (fuel : Nat) (w : World) (command : List Nat)
    (cmdLen : Nat) (response : List Nat) (expectedLen : Nat) :
    (expectedLen ≤ response.length →
      sendCommand ch fuel w command cmdLen response expectedLen ≠ .error .outOfBounds) ∧
    (∀ ok r w1, sendCommand ch fuel w command cmdLen response expectedLen = .ok (ok, r, w1) →
      ∃ (w0 : World) (n : Nat),
        sendCommand.drain ch fuel w = .ok w0 ∧
        w1.readCalls = w0.readCalls + n ∧
        (ok = true ↔ n = expectedLen) ∧
        n ≤ expectedLen ∧
        r.length = response.length ∧
        (∀ i, n ≤ i → r.getD i 0 = response.getD i 0) ∧
        (∀ i, i < n → r.getD i 0 = ch.read (w0.readCalls + i) % 256)) := by
  constructor
  · intro hlen
    unfold sendCommand
    cases hd : sendCommand.drain ch fuel w with
    | error e =>
      have := sendCommand.drain_no_outOfBounds ch fuel w
      rw [hd] at this
      simpa using this
    | ok w0 =>
      dsimp only
      have := sendCommand.receive_no_outOfBounds ch
        (millis { w0 with sent := w0.sent ++ [command.take cmdLen] }) expectedLen fuel
        { w0 with sent := w0.sent ++ [command.take cmdLen] } 0 response hlen
      cases hr : sendCommand.receive ch
          (millis { w0 with sent := w0.sent ++ [command.take cmdLen] }) expectedLen fuel
          { w0 with sent := w0.sent ++ [command.take cmdLen] } 0 response with
      | error e =>
        rw [hr] at this
        simpa using this
      | ok v => simp
  · intro ok r w1 h
    unfold sendCommand at h
    cases hd : sendCommand.drain ch fuel w with
    | error e => rw [hd] at h; simp at h
    | ok w0 =>
      rw [hd] at h
      dsimp only at h
      cases hr : sendCommand.receive ch
          (millis { w0 with sent := w0.sent ++ [command.take cmdLen] }) expectedLen fuel
          { w0 with sent := w0.sent ++ [command.take cmdLen] } 0 response with
      | error e => rw [hr] at h; simp at h
      | ok v =>
        obtain ⟨n, r0, w3⟩ := v
        rw [hr] at h
        simp only [Except.ok.injEq, Prod.mk.injEq] at h
        obtain ⟨h1, h2, h3⟩ := h
        rw [h2, h3] at hr
        obtain ⟨_, t2, t3, t4, t5, t6⟩ :=
          sendCommand.receive_trace ch _ expectedLen fuel _ 0 response n r w1 hr
            (Nat.zero_le _)
        refine ⟨w0, n, rfl, by simpa using t3, ?_, t2, t4,
          fun i hi => t5 i (Or.inr hi), fun i hi => by simpa using t6 i (Nat.zero_le _) hi⟩
        rw [← h1]
        exact decide_eq_true_iff

/-- C14 on the port that answers with the sample composition response: for
`expectedLen = 24` no store falls outside the buffer, the call returns `true`
after reading exactly 24 bytes, and the buffer holds them in arrival order. -/
theorem sendCommand_result_witness :
    sendCommand (Channel.replying sampleCompositionResponse) 30 World.initial
      (getBodyCompositionData.command defaultUser 500) 13 (List.replicate 24 0) 24
        ≠ .error .outOfBounds ∧
    ∃ (w0 : World) (n : Nat),
      sendCommand.drain (Channel.replying sampleCompositionResponse) 30 World.initial
        = .ok w0 ∧
      (World.mk 25 24 72 [(getBodyCompositionData.command defaultUser 500).take 13]).readCalls
        = w0.readCalls + n ∧
      (true = true ↔ n = 24) ∧
      n ≤ 24 ∧
      sampleCompositionResponse.length = (List.replicate 24 0 : List Nat).length ∧
      (∀ i, n ≤ i → sampleCompositionResponse.getD i 0 = (List.replicate 24 0).getD i 0) ∧
      (∀ i, i < n → sampleCompositionResponse.getD i 0
        = (Channel.replying sampleCompositionResponse).read (w0.readCalls + i) % 256) :=
  ⟨(sendCommand_result (Channel.replying sampleCompositionResponse) 30 World.initial
      (getBodyCompositionData.command defaultUser 500) 13 (List.replicate 24 0) 24).1
      (by decide),
   (sendCommand_result (Channel.replying sampleCompositionResponse) 30 World.initial
      (getBodyCompositionData.command defaultUser 500) 13 (List.replicate 24 0) 24).2 true
      sampleCompositionResponse _ (sendCommand_replying _ 13)⟩

/-! ## Timeout and termination of a transaction -/

/-- On a port that never has a byte the discard loop ends at its first poll. -/
theorem sendCommand.drain_silent (ch : Channel) (hs : ∀ k, ch.available k = false)
    (fuel : Nat) (w : World) (hfuel : 0 < fuel) :
    sendCommand.drain ch fuel w = .ok { w with availableCalls := w.availableCalls + 1 } := by
  obtain ⟨f, rfl⟩ : ∃ f, fuel = f + 1 := ⟨fuel - 1, by omega⟩
  simp only [sendCommand.drain, hs]
  rfl

/-- On a port that never has a byte, the receive loop started `500 - d` ms
after the send polls `d` more times, 1 ms apart, and exits with nothing
read. -/
theorem sendCommand.receive_silent (ch : Channel) (hs : ∀ k, ch.available k = false)
    (s expectedLen : Nat) (hel : 0 < expectedLen) (response : List Nat) :
    ∀ (d fuel : Nat) (w : World), d ≤ 500 → w.now = s + (500 - d) → d < fuel →
      sendCommand.receive ch (s % 2 ^ 32) expectedLen fuel w 0 response
        = .ok (0, response,
            { w with availableCalls := w.availableCalls + d, now := w.now + d }) := by
  intro d
  induction d with
  | zero =>
    intro fuel w _ hnow hfuel
    obtain ⟨f, rfl⟩ : ∃ f, fuel = f + 1 := ⟨fuel - 1, by omega⟩
    have he : (millis w + 2 ^ 32 - s % 2 ^ 32) % 2 ^ 32 = 500 := by
      rw [millis, hnow]
      exact elapsed_eq s 500 (by norm_num)
    simp only [sendCommand.receive, he]
    rw [if_neg (by omega)]
    rfl
  | succ d ih =>
    intro fuel w hd hnow hfuel
    obtain ⟨f, rfl⟩ : ∃ f, fuel = f + 1 := ⟨fuel - 1, by omega⟩
    have he : (millis w + 2 ^ 32 - s % 2 ^ 32) % 2 ^ 32 = 500 - (d + 1) := by
      rw [millis, hnow]
      exact elapsed_eq s (500 - (d + 1)) (by norm_num; omega)
    simp only [sendCommand.receive, he, hs]
    rw [if_pos ⟨by omega, hel⟩]
    simp only [Bool.false_eq_true, if_false]
    rw [ih f (delay 1 { w with availableCalls := w.availableCalls + 1 }) (by omega)
      (by simp only [delay]; omega) (by omega)]
    simp only [delay, Except.ok.injEq, Prod.mk.injEq, true_and, World.mk.injEq, and_true]
    omega

/-- On a port that never has a byte, the receive loop is still running after
`fuel` polls as long as fewer than 500 ms have elapsed. -/
theorem sendCommand.receive_silent_running (ch : Channel)
    (hs : ∀ k, ch.available k = false) (s expectedLen : Nat) (hel : 0 < expectedLen)
    (response : List Nat) :
    ∀ (fuel e : Nat) (w : World), w.now = s + e → e + fuel ≤ 500 →
      sendCommand.receive ch (s % 2 ^ 32) expectedLen fuel w 0 response
        = .error .outOfFuel := by
  intro fuel
  induction fuel with
  | zero => intro e w _ _; rfl
  | succ f ih =>
    intro e w hnow hle
    have he : (millis w + 2 ^ 32 - s % 2 ^ 32) % 2 ^ 32 = e := by
      rw [millis, hnow]
      exact elapsed_eq s e (by norm_num; omega)
    simp only [sendCommand.receive, he, hs]
    rw [if_pos ⟨by omega, hel⟩]
    simp only [Bool.false_eq_true, if_false]
    exact ih (e + 1) _ (by simp only [delay]; omega) (by omega)

/-- On a port that never has a byte `sendCommand` times out: it returns `false`
500 ms after the send, having polled once in the discard loop and 500 times
in the wait, with nothing read and the buffer as it was. -/
theorem sendCommand_silent (ch : Channel) (hs : ∀ k, ch.available k = false)
    (fuel : Nat) (w : World) (command : List Nat) (cmdLen : Nat) (response : List Nat)
    (expectedLen : Nat) (hel : 0 < expectedLen) (hfuel : 501 ≤ fuel) :
    sendCommand ch fuel w command cmdLen response expectedLen
      = .ok (false, response,
          World.mk (w.availableCalls + 501) w.readCalls (w.now + 500)
            (w.sent ++ [command.take cmdLen])) := by
  unfold sendCommand
  rw [sendCommand.drain_silent ch hs fuel w (by omega)]
  dsimp only
  rw [millis, sendCommand.receive_silent ch hs w.now expectedLen hel response 500 fuel _
    (Nat.le_refl _) (by simp) (by omega)]
  simp only [Except.ok.injEq, Prod.mk.injEq, World.mk.injEq, and_true, true_and]
  exact decide_eq_false (by omega)

/-- C15: with the clock advancing 1 ms at every poll, a channel that never
reports available bytes makes `sendCommand` (for `expectedLen > 0`) return
failure with 0 bytes received: no byte was read and the buffer is as it was.
The receive loop exits at the first poll at which at least 500 ms have elapsed
since the send and not before: the call returns exactly 500 ms after the send,
after 500 polls of the wait (and one of the discard loop), and with fuel for
at most 500 loop rounds the wait is still running. -/
theorem transaction_timeout (ch : Channel) (fuel : Nat) (w : World) (command : List Nat)
    (cmdLen : Nat) (response : List Nat) (expectedLen : Nat)
    (hs : ∀ k, ch.available k = false) (hel : 0 < expectedLen) (hfuel : 501 ≤ fuel) :
    sendCommand ch fuel w command cmdLen response expectedLen
      = .ok (false, response,
          World.mk (w.availableCalls + 501) w.readCalls (w.now + 500)
            (w.sent ++ [command.take cmdLen])) ∧
    (∀ fuel2, fuel2 ≤ 500 →
      sendCommand ch fuel2 w command cmdLen response expectedLen = .error .outOfFuel) := by
  refine ⟨sendCommand_silent ch hs fuel w command cmdLen response expectedLen hel hfuel, ?_⟩
  intro fuel2 h2
  unfold sendCommand
  by_cases h0 : fuel2 = 0
  · subst h0
    rfl
  · rw [sendCommand.drain_silent ch hs fuel2 w (by omega)]
    dsimp only
    rw [millis, sendCommand.receive_silent_running ch hs w.now expectedLen hel response fuel2 0
      _ (by simp) (by omega)]

/-- C15 on the port `Channel.silent`, for the frame of `enterImpedanceMode` and
7 expected bytes, from the initial environment. -/
theorem transaction_timeout_witness :
    sendCommand Channel.silent 501 World.initial enterImpedanceMode.command 7
        (List.replicate 7 0) 7
      = .ok (false, List.replicate 7 0,
          World.mk (World.initial.availableCalls + 501) World.initial.readCalls
            (World.initial.now + 500)
            (World.initial.sent ++ [enterImpedanceMode.command.take 7])) ∧
    (∀ fuel2, fuel2 ≤ 500 →
      sendCommand Channel.silent fuel2 World.initial enterImpedanceMode.command 7
        (List.replicate 7 0) 7 = .error .outOfFuel) :=
  transaction_timeout Channel.silent 501 World.initial enterImpedanceMode.command 7
    (List.replicate 7 0) 7 (fun _ => rfl) (by decide) (by decide)

/-- On a port that reports a byte at every poll the discard loop uses up any
fuel. -/
theorem sendCommand.drain_flooding (ch : Channel) (hf : ∀ k, ch.available k = true) :
    ∀ (fuel : Nat) (w : World), sendCommand.drain ch fuel w = .error .outOfFuel := by
  intro fuel
  induction fuel with
  | zero => intro w; rfl
  | succ f ih =>
    intro w
    simp only [sendCommand.drain, hf, if_true]
    exact ih _

/-- The discard loop ends when the port reports nothing at its `k + 1`-th poll,
after `k` bytes were discarded. -/
theorem sendCommand.drain_terminates (ch : Channel) :
    ∀ (k fuel : Nat) (w : World),
      (∀ j, j < k → ch.available (w.availableCalls + j) = true) →
      ch.available (w.availableCalls + k) = false → k < fuel →
      sendCommand.drain ch fuel w
        = .ok { w with availableCalls := w.availableCalls + (k + 1),
                       readCalls := w.readCalls + k } := by
  intro k
  induction k with
  | zero =>
    intro fuel w _ he hfuel
    obtain ⟨f, rfl⟩ : ∃ f, fuel = f + 1 := ⟨fuel - 1, by omega⟩
    simp only [Nat.add_zero] at he
    simp only [sendCommand.drain, he]
    rfl
  | succ k ih =>
    intro fuel w hfull he hfuel
    obtain ⟨f, rfl⟩ : ∃ f, fuel = f + 1 := ⟨fuel - 1, by omega⟩
    have h0 : ch.available w.availableCalls = true := by
      simpa using hfull 0 (by omega)
    simp only [sendCommand.drain, h0, if_true]
    rw [ih f _ (fun j hj => by
        have := hfull (j + 1) (by omega)
        simpa [Nat.add_assoc, Nat.add_comm 1 j] using this)
      (by simpa [Nat.add_assoc, Nat.add_comm 1 k] using he) (by omega)]
    simp only [Except.ok.injEq, World.mk.injEq, and_true]
    omega

/-- The receive loop returns within 500 rounds whatever the port does: every
round advances the clock by at least 1 ms. -/
theorem sendCommand.receive_terminates (ch : Channel) (s expectedLen : Nat) :
    ∀ (fuel : Nat) (w : World) (bytesRead : Nat) (response : List Nat) (e : Nat),
      w.now = s + e → e ≤ 502 → 500 - e < fuel → expectedLen ≤ response.length →
      ∃ n r w1,
        sendCommand.receive ch (s % 2 ^ 32) expectedLen fuel w bytesRead response
          = .ok (n, r, w1) ∧
        w1.availableCalls ≤ w.availableCalls + (500 - e) ∧ w1.now ≤ s + 502 := by
  intro fuel
  induction fuel with
  | zero => intro w b resp e _ _ hf _; omega
  | succ f ih =>
    intro w b resp e hnow he hf hlen
    have hel : (millis w + 2 ^ 32 - s % 2 ^ 32) % 2 ^ 32 = e := by
      rw [millis, hnow]
      exact elapsed_eq s e (by norm_num; omega)
    simp only [sendCommand.receive, hel]
    split
    · rename_i hcond
      split
      · rw [if_pos (by omega)]
        obtain ⟨n, r, w1, h1, h2, h3⟩ := ih
          (delay 1 (delay 2
            { w with availableCalls := w.availableCalls + 1, readCalls := w.readCalls + 1 }))
          (b + 1) (resp.set b (ch.read w.readCalls % 256)) (e + 3)
          (by simp only [delay]; omega) (by omega) (by omega)
          (by rw [List.length_set]; exact hlen)
        refine ⟨n, r, w1, h1, ?_, h3⟩
        simp only [delay] at h2
        omega
      · obtain ⟨n, r, w1, h1, h2, h3⟩ := ih
          (delay 1 { w with availableCalls := w.availableCalls + 1 }) b resp (e + 1)
          (by simp only [delay]; omega) (by omega) (by omega) hlen
        refine ⟨n, r, w1, h1, ?_, h3⟩
        simp only [delay] at h2
        omega
    · exact ⟨b, resp, w, rfl, by omega, by omega⟩

/-! ## Termination of a transaction -/

/-- C16 as stated fails: on a port that reports a byte at every poll the
discard loop of `sendCommand` never ends, so the transaction does not return
after any number of channel operations. -/
theorem flooding_channel_never_returns :
    (∀ k, Channel.flooding.available k = true) ∧
    ∀ fuel : Nat,
      sendCommand Channel.flooding fuel World.initial enterImpedanceMode.command 7
        (List.replicate 7 0) 7 = .error .outOfFuel := by
  refine ⟨fun _ => rfl, fun fuel => ?_⟩
  unfold sendCommand
  rw [sendCommand.drain_flooding Channel.flooding (fun _ => rfl)]

/-- C16 amended: `sendCommand` terminates within the timeout bound under every
channel behaviour in which the initial discard finds the port empty after
finitely many bytes.  If the port reports a byte at the first `k` polls of the
discard loop and none at the next, then, for a buffer of at least
`expectedLen` cells, the whole transaction returns after at most `k + 1 + 500`
calls of `BHM.available()` and at most `k + expectedLen` calls of
`BHM.read()`, at most 502 ms after it started. -/
theorem sendCommand_terminates (ch : Channel) (fuel : Nat) (w : World) (command : List Nat)
    (cmdLen : Nat) (response : List Nat) (expectedLen k : Nat)
    (hfull : ∀ j, j < k → ch.available (w.availableCalls + j) = true)
    (hempty : ch.available (w.availableCalls + k) = false)
    (hlen : expectedLen ≤ response.length)
    (hfuel : k + 501 ≤ fuel) :
    ∃ ok r w1,
      sendCommand ch fuel w command cmdLen response expectedLen = .ok (ok, r, w1) ∧
      w1.availableCalls ≤ w.availableCalls + (k + 1 + 500) ∧
      w1.readCalls ≤ w.readCalls + (k + expectedLen) ∧
      w1.now ≤ w.now + 502 := by
  have hd := sendCommand.drain_terminates ch k fuel w hfull hempty (by omega)
  obtain ⟨n, r, w1, hr, ha, hn⟩ := sendCommand.receive_terminates ch w.now expectedLen fuel
    { availableCalls := w.availableCalls + (k + 1), readCalls := w.readCalls + k,
      now := w.now, sent := w.sent ++ [command.take cmdLen] } 0 response 0
    rfl (by omega) (by omega) hlen
  have htrace := sendCommand.receive_trace ch _ expectedLen fuel _ 0 response n r w1 hr
    (Nat.zero_le _)
  refine ⟨decide (n = expectedLen), r, w1, ?_, ?_, ?_, hn⟩
  · unfold sendCommand
    rw [hd]
    dsimp only
    rw [millis, hr]
  · simp only at ha
    omega
  · have h3 := htrace.2.2.1
    have h2 := htrace.2.1
    simp only at h3
    omega

/-- C16 amended, on the port that answers with the sample composition
response: nothing is buffered (`k = 0`), and the transaction returns. -/
theorem sendCommand_terminates_witness :
    ∃ ok r w1,
      sendCommand (Channel.replying sampleCompositionResponse) 501 World.initial
        enterImpedanceMode.command 7 (List.replicate 24 0) 24 = .ok (ok, r, w1) ∧
      w1.availableCalls ≤ World.initial.availableCalls + (0 + 1 + 500) ∧
      w1.readCalls ≤ World.initial.readCalls + (0 + 24) ∧
      w1.now ≤ World.initial.now + 502 :=
  sendCommand_terminates (Channel.replying sampleCompositionResponse) 501 World.initial
    enterImpedanceMode.command 7 (List.replicate 24 0) 24 0
    (fun j hj => absurd hj (Nat.not_lt_zero j)) (by decide) (by decide) (by decide)

/-! ## Result of `readImpedanceMode` -/

/-- C18 as stated fails: `readImpedanceMode` returns `false` for a valid
response reporting foot mode (mode byte 0), and it returns the same `false`
when the response has a wrong start marker, when the status byte is not 0,
and when the transaction times out on a silent port. -/
theorem failure_looks_like_foot_mode :
    readImpedanceMode (Channel.replying (modeResponse 0x5A 0x0A 0)) 30 World.initial
      = .ok (false, World.mk 13 12 36 [readImpedanceMode.command]) ∧
    readImpedanceMode (Channel.replying (modeResponse 0x00 0x0A 1)) 30 World.initial
      = .ok (false, World.mk 13 12 36 [readImpedanceMode.command]) ∧
    readImpedanceMode (Channel.replying ((modeResponse 0x5A 0x0A 1).set 4 0x01)) 30
        World.initial
      = .ok (false, World.mk 13 12 36 [readImpedanceMode.command]) ∧
    readImpedanceMode Channel.silent 501 World.initial
      = .ok (false, World.mk 501 0 500 [readImpedanceMode.command]) := by
  refine ⟨by decide, by decide, by decide, ?_⟩
  rw [readImpedanceMode_eq,
    sendCommand_silent Channel.silent (fun _ => rfl) 501 World.initial _ 12 _ 12
      (by decide) (by decide)]
  rfl

/-- C18 amended: `readImpedanceMode` returns a two-valued result.  It returns
`true` exactly when the transaction succeeds and the response has the start
marker 0x5A, the status byte 0 and a non-zero mode byte at offset 9 (hand
mode); it returns `false` for a valid response reporting foot mode (mode byte
0) and also for every failure (timeout or short read, wrong start marker,
non-zero status), which the caller cannot tell from foot mode. -/
theorem readImpedanceMode_contract (ch : Channel) (fuel : Nat) (w : World) (b : Bool)
    (w1 : World) (h : readImpedanceMode ch fuel w = .ok (b, w1)) :
    ∃ (ok : Bool) (response : List Nat),
      sendCommand ch fuel w readImpedanceMode.command 12 (List.replicate 12 0) 12
        = .ok (ok, response, w1) ∧
      (b = true ↔ (ok = true ∧ response.getD 0 0 = 0x5A ∧ response.getD 4 0 = 0x00 ∧
        response.getD 9 0 ≠ 0)) ∧
      (b = false ↔ (ok = false ∨ response.getD 0 0 ≠ 0x5A ∨ response.getD 4 0 ≠ 0x00 ∨
        response.getD 9 0 = 0)) := by
  rw [readImpedanceMode_eq] at h
  cases hsc : sendCommand ch fuel w readImpedanceMode.command 12 (List.replicate 12 0) 12 with
  | error e => rw [hsc] at h; simp [Except.map] at h
  | ok v =>
    obtain ⟨ok, resp, w2⟩ := v
    rw [hsc] at h
    simp only [Except.map, Except.ok.injEq, Prod.mk.injEq] at h
    obtain ⟨hb, hw⟩ := h
    subst hw
    have htrue : b = true ↔ (ok = true ∧ resp.getD 0 0 = 0x5A ∧ resp.getD 4 0 = 0x00 ∧
        resp.getD 9 0 ≠ 0) := by
      rw [← hb, Bool.and_eq_true, Bool.and_eq_true, decide_eq_true_iff, decide_eq_true_iff]
      tauto
    refine ⟨ok, resp, rfl, htrue, ?_⟩
    rw [← Bool.not_eq_true, htrue, ← Bool.not_eq_true ok]
    tauto

/-- C18 amended, at a valid response reporting hand mode (mode byte 1): the
call returns `true`. -/
theorem readImpedanceMode_contract_witness :
    readImpedanceMode (Channel.replying (modeResponse 0x5A 0x0A 1)) 30 World.initial
      = .ok (true, World.mk 13 12 36 [readImpedanceMode.command]) ∧
    ∃ (ok : Bool) (response : List Nat),
      sendCommand (Channel.replying (modeResponse 0x5A 0x0A 1)) 30 World.initial
        readImpedanceMode.command 12 (List.replicate 12 0) 12
        = .ok (ok, response, World.mk 13 12 36 [readImpedanceMode.command]) ∧
      (true = true ↔ (ok = true ∧ response.getD 0 0 = 0x5A ∧ response.getD 4 0 = 0x00 ∧
        response.getD 9 0 ≠ 0)) ∧
      (true = false ↔ (ok = false ∨ response.getD 0 0 ≠ 0x5A ∨ response.getD 4 0 ≠ 0x00 ∨
        response.getD 9 0 = 0)) :=
  ⟨by decide,
   readImpedanceMode_contract (Channel.replying (modeResponse 0x5A 0x0A 1)) 30 World.initial
     true (World.mk 13 12 36 [readImpedanceMode.command]) (by decide)⟩

end BMH05102
